import Mathlib

/-!
SOCKS5 proxy server (`server.c`).

A shallow embedding of `negotiate_auth_method`, `parse_request`, `send_reply`,
`serve_socks_client`, `tunnel_sockets` and `start_socks_server`.  Socket calls
are recorded as a list of events; what the kernel answers (bytes delivered by
`recv`, return values of `select`, `send`, `accept`, of the upstream connect)
and the contents of uninitialised stack memory are inputs of the embedded
functions.  The two endless loops are run on a finite list of such answers,
one element per iteration.
-/

namespace Socks5

/-- One octet (`uint8_t`, and `char` seen as its bit pattern). -/
abbrev Byte := Fin 256

/-! ## Constants of `server.c` -/

abbrev SOCKS5_VER : Byte := 0x05
abbrev SCOKS5_SUPP_METHOD : Byte := 0x00
abbrev SOCKS5_UNSUPP_METHOD : Byte := 0xFF
abbrev SOCKS5_RSV : Byte := 0x00
abbrev SOCKS5_CONN_SUCCEED : Byte := 0x00
abbrev SOCKS5_CONN_FAIL : Byte := 0x01
abbrev SOCKS5_IPV4 : Byte := 0x01
abbrev SOCKS5_DOMAINNAME : Byte := 0x03
abbrev SOCKS5_IPV6 : Byte := 0x04

/-- Value of `INET6_ADDRSTRLEN` in `<netinet/in.h>`. -/
abbrev INET6_ADDRSTRLEN : Nat := 46

/-! ## Sockets and memory -/

/-- Socket calls made by the worker, in program order. -/
inductive Event where
  | recv (fd : Int) (cap : Nat)
  | send (fd : Int) (buf : List Byte)
  | create_connection (addr : List Byte) (port : List Byte)
  | tunnel_sockets (fd1 : Int) (fd2 : Int)
  | close (fd : Int)
  deriving DecidableEq

/-- Contents of a `cap`-byte buffer after `memset(buf, 0, cap)` and
`recv(fd, buf, cap, 0)`.  The argument `rx` is what the kernel delivers:
`none` when `recv` fails, `some bs` when it hands over the bytes `bs`
(at most `cap` of them are stored). -/
def recv_buf (cap : Nat) (rx : Option (List Byte)) : List Byte :=
  match rx with
  | none => List.replicate cap 0
  | some bs => bs.take cap ++ List.replicate (cap - (bs.take cap).length) 0

/-- Return value of `recv(fd, buf, cap, 0)`: -1 on error, else the byte count. -/
def recv_nbytes (cap : Nat) (rx : Option (List Byte)) : Int :=
  match rx with
  | none => -1
  | some bs => ((bs.take cap).length : Int)

/-- A local array of `n` bytes that has not been initialised: position `k`
holds whatever `garbage k` the stack held. -/
def stack_buf (n : Nat) (garbage : Nat → Byte) : List Byte :=
  (List.range n).map garbage

/-- The `n` bytes `strncpy(dest, src, n)` stores at `dest[0..n)`: the bytes of
`src` up to its first NUL (at most `n`), then NUL padding. -/
def strncpy (src : List Byte) (n : Nat) : List Byte :=
  let s := (src.take n).takeWhile (fun b => b ≠ 0)
  s ++ List.replicate (n - s.length) 0

/-- Stores `dest[off + k] = bs[k]` for every `k`, as (index, value) pairs. -/
def stores_at (off : Nat) : List Byte → List (Nat × Byte)
  | [] => []
  | b :: bs => (off, b) :: stores_at (off + 1) bs

/-- Carry out a sequence of stores on a buffer; `none` as soon as one store
falls outside the buffer. -/
def apply_writes (buf : List Byte) : List (Nat × Byte) → Option (List Byte)
  | [] => some buf
  | (i, b) :: ws => if i < buf.length then apply_writes (buf.set i b) ws else none

/-- The C string held at the start of a buffer: the bytes before the first NUL. -/
def c_string (buf : List Byte) : List Byte :=
  buf.takeWhile (fun b => b ≠ 0)

/-! ## `negotiate_auth_method` -/

/-- The scanning loop
`for (i = 2; i < nmethods + 2 && i < sizeof(request); i++)` with the loop
variable `i` and the current value of `method`; the first argument bounds the
number of iterations. -/
def negotiate_loop (request : List Byte) (nmethods : Nat) : Nat → Nat → Byte → Byte
  | 0, _, method => method
  | fuel + 1, i, method =>
    if i < nmethods + 2 ∧ i < 1024 then
      let method := request.getD i 0
      if method = SCOKS5_SUPP_METHOD then method
      else negotiate_loop request nmethods fuel (i + 1) method
    else method

/-- Value of `method` after the loop and after
`if (method != SCOKS5_SUPP_METHOD) method = SOCKS5_UNSUPP_METHOD;`.
`method0` is the indeterminate initial value of the local `method`. -/
def selected_method (request : List Byte) (method0 : Byte) : Byte :=
  let nmethods := request.getD 1 0
  let method := negotiate_loop request nmethods.val 1024 2 method0
  if method ≠ SCOKS5_SUPP_METHOD then SOCKS5_UNSUPP_METHOD else method

/-- Outcome of a handshake function: the socket calls it made and its
return value. -/
structure Outcome where
  trace : List Event
  ret : Int
  deriving DecidableEq

/-- Embedding of `negotiate_auth_method(clientfd)`.  `rx` is what `recv`
delivers, `method0` the indeterminate initial `method`, `send_ret` the
return value of the `send` call. -/
def negotiate_auth_method (clientfd : Int) (rx : Option (List Byte))
    (method0 : Byte) (send_ret : Int) : Outcome :=
  let request := recv_buf 1024 rx
  let nbytes := recv_nbytes 1024 rx
  if nbytes < 3 then ⟨[.recv clientfd 1024], -1⟩
  else
    let ver := request.getD 0 0
    if ver ≠ SOCKS5_VER then ⟨[.recv clientfd 1024], -1⟩
    else
      let method := selected_method request method0
      let msg := [ver, method]
      if send_ret ≠ 2 then ⟨[.recv clientfd 1024, .send clientfd msg], -1⟩
      else if method ≠ SOCKS5_UNSUPP_METHOD then
        ⟨[.recv clientfd 1024, .send clientfd msg], 0⟩
      else ⟨[.recv clientfd 1024, .send clientfd msg], -1⟩

/-! ## `parse_request` -/

/-- Messages `parse_request` prints on standard error. -/
inductive Diag where
  | could_not_recv
  | invalid_ver
  | invalid_cmd
  | invalid_atyp
  | nbytes_too_small
  deriving DecidableEq

/-- What `parse_request` did: socket calls, diagnostics printed, the stores
made through the pointer `addr` (index, value) in program order, the value
stored to `*port` if one was stored, and the return value. -/
structure ParseResult where
  trace : List Event
  stderr : List Diag
  addr_writes : List (Nat × Byte)
  port : Option Nat
  ret : Int
  deriving DecidableEq

set_option linter.unusedVariables false in
/-- Embedding of `parse_request(clientfd, addr_size, addr, port)`.  `rx` is what
`recv` delivers.  As in the source, `addr_size` is received and never used. -/
def parse_request (clientfd : Int) (addr_size : Nat) (rx : Option (List Byte)) :
    ParseResult :=
  let msg := recv_buf 1024 rx
  let nbytes := recv_nbytes 1024 rx
  if nbytes ≤ 5 then ⟨[.recv clientfd 1024], [.could_not_recv], [], none, -1⟩
  else if SOCKS5_VER ≠ msg.getD 0 0 then
    ⟨[.recv clientfd 1024], [.invalid_ver], [], none, -1⟩
  else if msg.getD 1 0 ≠ 1 then
    ⟨[.recv clientfd 1024], [.invalid_cmd], [], none, -1⟩
  else
    let atyp := msg.getD 3 0
    if atyp ≠ SOCKS5_IPV4 ∧ atyp ≠ SOCKS5_DOMAINNAME ∧ atyp ≠ SOCKS5_IPV6 then
      ⟨[.recv clientfd 1024], [.invalid_atyp], [], none, -1⟩
    else
      let switch : Option Nat :=
        if atyp = SOCKS5_IPV4 then some 4
        else if atyp = SOCKS5_DOMAINNAME then some (msg.getD 4 0).val
        else if atyp = SOCKS5_IPV6 then some 16
        else none
      match switch with
      | none => ⟨[.recv clientfd 1024], [], [], none, -1⟩
      | some addr_len =>
        let stderr : List Diag :=
          if nbytes - 5 - 2 < (addr_len : Int) then [.nbytes_too_small] else []
        let copied : List Byte :=
          if atyp = SOCKS5_DOMAINNAME then strncpy (msg.drop 5) addr_len
          else strncpy (msg.drop 3) (addr_len - 1)
        let i : Nat :=
          if atyp = SOCKS5_DOMAINNAME then 5 + addr_len else 3 + addr_len
        let addr_writes := stores_at 0 copied ++ [(addr_len, 0)]
        let port := (msg.getD i 0).val <<< 8 ||| (msg.getD (i + 1) 0).val
        ⟨[.recv clientfd 1024], stderr, addr_writes, some port, 0⟩

/-! ## `send_reply` -/

/-- The array a C string literal initialises: its characters and the
terminating NUL. -/
def c_literal (s : String) : List Byte :=
  s.toList.map (fun c => (Fin.ofNat c.toNat : Byte)) ++ [0]

/-- Stores `bs` into `buf` from position `off` on. -/
def store_bytes (buf : List Byte) (off : Nat) (bs : List Byte) : List Byte :=
  (stores_at off bs).foldl (fun b w => b.set w.1 w.2) buf

/-- Embedding of `send_reply(clientfd, rep)`.  `garbage` is the content of the
stack where the local `reply` lives, `send_ret` the return value of `send`. -/
def send_reply (clientfd : Int) (rep : Byte) (garbage : Nat → Byte) (send_ret : Int) :
    Outcome :=
  let s := c_literal "0.0.0.0"
  let sizeof_s := s.length
  let reply := stack_buf (9 + sizeof_s) garbage
  let reply := reply.set 0 SOCKS5_VER
  let reply := reply.set 1 rep
  let reply := reply.set 2 SOCKS5_RSV
  let reply := reply.set 3 SOCKS5_DOMAINNAME
  let reply := reply.set 4 (Fin.ofNat sizeof_s)
  let reply := store_bytes reply 5 (strncpy s sizeof_s)
  let reply := reply.set (5 + sizeof_s) 0x00
  let reply := reply.set (6 + sizeof_s) 0x00
  if send_ret ≠ (reply.length : Int) then ⟨[.send clientfd reply], -1⟩
  else ⟨[.send clientfd reply], 0⟩

/-! ## `serve_socks_client` -/

/-- The decimal text of a natural number, as ASCII bytes. -/
def decimal_text (n : Nat) : List Byte :=
  (Nat.toDigits 10 n).map (fun c => (Fin.ofNat c.toNat : Byte))

/-- What `snprintf(str, size, "%d", n)` does for `n ≥ 0` and `size ≥ 1`: the
C string left in `str` (the first `size - 1` characters of the decimal text)
and the return value (the length of the whole decimal text). -/
def snprintf_d (size : Nat) (n : Nat) : List Byte × Int :=
  let text := decimal_text n
  (text.take (size - 1), (text.length : Int))

/-- Answers of the outside world during one run of `serve_socks_client`, and
the contents of its uninitialised locals. -/
structure Env where
  /-- delivered by the `recv` of `negotiate_auth_method` -/
  negotiation_rx : Option (List Byte)
  /-- delivered by the `recv` of `parse_request` -/
  request_rx : Option (List Byte)
  /-- return value of the `send` of the method selection -/
  method_send_ret : Int
  /-- return value of `create_connection`: a descriptor, or -1 -/
  connect_ret : Int
  /-- return value of the `send` of the reply -/
  reply_send_ret : Int
  /-- return value of `tunnel_sockets`; `none` when the relay loop never ends -/
  tunnel_ret : Option Int
  /-- initial value of the local `method` of `negotiate_auth_method` -/
  method_garbage : Byte
  /-- initial contents of the local `addr` and of the stack that follows it -/
  addr_garbage : Nat → Byte
  /-- initial contents of the local `reply` of `send_reply` -/
  reply_garbage : Nat → Byte

/-- Carry out a sequence of stores on a stretch of memory, each at its index. -/
def write_through (mem : List Byte) (ws : List (Nat × Byte)) : List Byte :=
  ws.foldl (fun m w => m.set w.1 w.2) mem

/-- Embedding of `serve_socks_client(clientfd)`: the socket calls of one
worker, in order.  `create_connection` and `tunnel_sockets` are recorded as
calls; their results come from `env`.  Nothing stops the run when
`parse_request` stores past the 47 bytes of `addr`: the stores (at indices up
to 255) then land in the stack that follows `addr`, and the host string is read
from there.  `*port` is stored on every path of `parse_request` that returns 0,
so the default of `getD` is never used. -/
def serve_socks_client (clientfd : Int) (env : Env) : List Event :=
  let neg := negotiate_auth_method clientfd env.negotiation_rx env.method_garbage
    env.method_send_ret
  if neg.ret < 0 then neg.trace ++ [.close clientfd]
  else
    let addr0 := stack_buf (INET6_ADDRSTRLEN + 1) env.addr_garbage
    let req := parse_request clientfd addr0.length env.request_rx
    if req.ret < 0 then neg.trace ++ req.trace ++ [.close clientfd]
    else
      let host : List Byte :=
        match apply_writes addr0 req.addr_writes with
        | some addr => c_string addr
        | none => c_string (write_through (stack_buf 256 env.addr_garbage) req.addr_writes)
      let port := req.port.getD 0
      let str_port := snprintf_d 4 port
      if str_port.2 ≤ 0 then neg.trace ++ req.trace ++ [.close clientfd]
      else
        let targetfd := env.connect_ret
        let t := neg.trace ++ req.trace ++ [.create_connection host str_port.1]
        let rep : Byte := if targetfd < 0 then 0x01 else SOCKS5_CONN_SUCCEED
        let rp := send_reply clientfd rep env.reply_garbage env.reply_send_ret
        if rp.ret < 0 then t ++ rp.trace ++ [.close targetfd, .close clientfd]
        else if rep = SOCKS5_CONN_FAIL then
          t ++ rp.trace ++ [.close targetfd, .close clientfd]
        else
          match env.tunnel_ret with
          | none => t ++ rp.trace ++ [.tunnel_sockets clientfd targetfd]
          | some r =>
            if r < 0 then
              t ++ rp.trace
                ++ [.tunnel_sockets clientfd targetfd, .close targetfd, .close clientfd]
            else t ++ rp.trace ++ [.tunnel_sockets clientfd targetfd, .close clientfd]

/-! ## `tunnel_sockets` -/

/-- An `fd_set`: the descriptors that are set in it. -/
abbrev fd_set := List Int

/-- `FD_ZERO(&s)`. -/
def FD_ZERO : fd_set := []

/-- `FD_SET(fd, &s)`. -/
def FD_SET (fd : Int) (s : fd_set) : fd_set := fd :: s

/-- `FD_CLR(fd, &s)`. -/
def FD_CLR (fd : Int) (s : fd_set) : fd_set := s.filter (fun x => x ≠ fd)

/-- `FD_ISSET(fd, &s)`. -/
def FD_ISSET (fd : Int) (s : fd_set) : Bool := decide (fd ∈ s)

/-- Calls made by the relay loop, in program order.  A `recv` is recorded with
its return value and the bytes it stored in `buf`. -/
inductive RelayEvent where
  | select (nfds : Int) (fds : fd_set)
  | recv (fd : Int) (nbytes : Int) (data : List Byte)
  | send (fd : Int) (buf : List Byte)
  | close (fd : Int)
  deriving DecidableEq

/-- Answers of the kernel during one iteration of the relay loop: the return
value of `select` and the descriptors it leaves set in `read_fds`, what `recv`
delivers if it is called, the return value of `send` if it is called. -/
structure Round where
  select_ret : Int
  read_fds : fd_set
  recv_rx : Option (List Byte)
  send_ret : Int

/-- The calls of the relay loop and its return value; `ret = none` when the loop
is still running after the last answer it was given. -/
structure RelayResult where
  trace : List RelayEvent
  ret : Option Int
  deriving DecidableEq

/-- The calls `evs` followed by what the rest of the loop does. -/
def RelayResult.after (evs : List RelayEvent) (r : RelayResult) : RelayResult :=
  ⟨evs ++ r.trace, r.ret⟩

/-- The bytes `recv(fd, buf, cap, 0)` stores in `buf`. -/
def recv_data (cap : Nat) (rx : Option (List Byte)) : List Byte :=
  match rx with
  | none => []
  | some bs => bs.take cap

/-- The `while (1)` loop of `tunnel_sockets`, one `Round` of answers per
iteration, with the loop state `master`, `i`, `j`. -/
def tunnel_loop (fdmax : Int) : fd_set → Int → Int → List Round → RelayResult
  | _, _, _, [] => ⟨[], none⟩
  | master, i, j, r :: rounds =>
    if r.select_ret = -1 then ⟨[.select (fdmax + 1) master], some (-1)⟩
    else if FD_ISSET i r.read_fds then
      let nbytes := recv_nbytes 16384 r.recv_rx
      let buf := recv_data 16384 r.recv_rx
      if nbytes ≤ 0 then
        if nbytes < 0 then
          ⟨[.select (fdmax + 1) master, .recv i nbytes buf], some (-1)⟩
        else
          (tunnel_loop fdmax (FD_CLR i master) j i rounds).after
            [.select (fdmax + 1) master, .recv i nbytes buf, .close i]
      else if FD_ISSET j master then
        if r.send_ret = -1 then
          ⟨[.select (fdmax + 1) master, .recv i nbytes buf, .send j buf], some (-1)⟩
        else
          (tunnel_loop fdmax master j i rounds).after
            [.select (fdmax + 1) master, .recv i nbytes buf, .send j buf]
      else
        (tunnel_loop fdmax master j i rounds).after
          [.select (fdmax + 1) master, .recv i nbytes buf]
    else (tunnel_loop fdmax master j i rounds).after [.select (fdmax + 1) master]

/-- Embedding of `tunnel_sockets(fd1, fd2)`, run on the answers `rounds`.  The
`return 0` after the loop cannot be reached. -/
def tunnel_sockets (fd1 fd2 : Int) (rounds : List Round) : RelayResult :=
  let master := FD_SET fd2 (FD_SET fd1 FD_ZERO)
  let fdmax := fd2
  tunnel_loop fdmax master fd1 fd2 rounds

/-- Every `recv` that obtained a non-empty chunk is directly followed by a
`send` of the same bytes. -/
def forwarded_at_once : List RelayEvent → Bool
  | [] => true
  | .recv _ _ data :: rest =>
    (data.isEmpty ||
      match rest with
      | .send _ buf :: _ => decide (buf = data)
      | _ => false) && forwarded_at_once rest
  | _ :: rest => forwarded_at_once rest

/-! ## `start_socks_server` -/

/-- Calls made by the acceptor, in program order. -/
inductive AcceptorEvent where
  | accept (serverfd : Int)
  | pthread_create (clientfd : Int)
  | close (fd : Int)
  deriving DecidableEq

/-- Answers met while handling one incoming connection: the return value of
`accept`, whether `malloc` returned a block, the return value of
`pthread_create`. -/
structure Arrival where
  accept_ret : Int
  malloc_ok : Bool
  pthread_create_ret : Int

/-- The calls of the acceptor, and whether `start_socks_server` has returned
(`false`: it is waiting in `accept` after the last answer it was given). -/
structure AcceptorResult where
  trace : List AcceptorEvent
  returned : Bool
  deriving DecidableEq

/-- The `while (1)` loop of `start_socks_server`, one `Arrival` per iteration. -/
def accept_loop (serverfd : Int) : List Arrival → AcceptorResult
  | [] => ⟨[.accept serverfd], false⟩
  | a :: arrivals =>
    let clientfd := a.accept_ret
    if clientfd < 0 then ⟨[.accept serverfd, .close serverfd], true⟩
    else if a.malloc_ok = false then
      ⟨[.accept serverfd, .close serverfd, .close clientfd], true⟩
    else if a.pthread_create_ret < 0 then
      ⟨[.accept serverfd, .pthread_create clientfd, .close serverfd, .close clientfd], true⟩
    else
      let rest := accept_loop serverfd arrivals
      ⟨[.accept serverfd, .pthread_create clientfd] ++ rest.trace, rest.returned⟩

/-- Embedding of `start_socks_server(addr, port)`; `init_ret` is the return
value of `init_server_socket`. -/
def start_socks_server (init_ret : Int) (arrivals : List Arrival) : AcceptorResult :=
  let serverfd := init_ret
  if serverfd < 0 then ⟨[], true⟩
  else accept_loop serverfd arrivals

/-! ## Specification-side values -/

/-- The dotted-decimal literal of an IPv4 address `a.b.c.d`, in the spec's words
the connectable host literal of the four address bytes. -/
def ipv4_literal (a b c d : Byte) : List Byte :=
  decimal_text a.val ++ [0x2E] ++ decimal_text b.val ++ [0x2E] ++ decimal_text c.val
    ++ [0x2E] ++ decimal_text d.val

/-- The socket whose turn it is in iteration `n` of the relay loop (counted from
0) when the two sockets take strict turns: `fd1` in the even iterations, `fd2`
in the odd ones. -/
def turn (fd1 fd2 : Int) (n : Nat) : Int :=
  if n % 2 = 0 then fd1 else fd2

/-- The descriptors of `fd1`, `fd2` that no `close` of the trace has closed. -/
def still_open (fd1 fd2 : Int) (trace : List RelayEvent) : fd_set :=
  (FD_SET fd2 (FD_SET fd1 FD_ZERO)).filter (fun fd => decide (RelayEvent.close fd ∉ trace))

/-! ## Buffers -/

theorem getD_recv_buf (cap : Nat) (bs : List Byte) (j : Nat) :
    (recv_buf cap (some bs)).getD j 0 = if j < cap then bs.getD j 0 else 0 := by
  simp only [recv_buf, List.getD_eq_getElem?_getD, List.getElem?_append, List.getElem?_take,
    List.length_take, List.getElem?_replicate]
  by_cases h1 : j < cap
  · by_cases h2 : j < bs.length
    · simp [h1, h2]
    · have h3 : bs[j]? = none := List.getElem?_eq_none (by omega)
      simp [h1, h2, h3]
      split <;> simp
  · simp [h1]
    split <;> simp

theorem recv_nbytes_some (cap : Nat) (bs : List Byte) :
    recv_nbytes cap (some bs) = ((min cap bs.length : Nat) : Int) := by
  simp [recv_nbytes, List.length_take]

theorem recv_buf_append (cap : Nat) (pre suf : List Byte) (h : pre.length ≤ cap) :
    ∃ tail, recv_buf cap (some (pre ++ suf)) = pre ++ tail := by
  refine ⟨suf.take (cap - pre.length)
    ++ List.replicate (cap - ((pre ++ suf).take cap).length) 0, ?_⟩
  simp only [recv_buf, List.take_append_eq_append_take, List.take_of_length_le h,
    List.append_assoc]

theorem takeWhile_nonzero (name tail : List Byte) (hnz : ∀ b ∈ name, b ≠ 0) :
    (name ++ 0 :: tail).takeWhile (fun b => b ≠ 0) = name := by
  induction name with
  | nil => simp
  | cons b bs ih =>
    have hb : b ≠ 0 := hnz b (List.mem_cons_self _ _)
    have := ih (fun x hx => hnz x (List.mem_cons_of_mem _ hx))
    rw [List.cons_append, List.takeWhile_cons, this]
    simp [hb]

theorem takeWhile_nonzero_self (name : List Byte) (hnz : ∀ b ∈ name, b ≠ 0) :
    name.takeWhile (fun b => b ≠ 0) = name := by
  induction name with
  | nil => simp
  | cons b bs ih =>
    have hb : b ≠ 0 := hnz b (List.mem_cons_self _ _)
    have := ih (fun x hx => hnz x (List.mem_cons_of_mem _ hx))
    rw [List.takeWhile_cons, this]
    simp [hb]

theorem strncpy_nonzero (name tail : List Byte) (hnz : ∀ b ∈ name, b ≠ 0) :
    strncpy (name ++ tail) name.length = name := by
  unfold strncpy
  simp only [List.take_left, takeWhile_nonzero_self name hnz, Nat.sub_self,
    List.replicate_zero, List.append_nil]

theorem set_append_head (done rest : List Byte) (r b : Byte) :
    (done ++ r :: rest).set done.length b = done ++ b :: rest := by
  induction done with
  | nil => rfl
  | cons d ds ih => simp [List.set, ih]

theorem apply_writes_name (name : List Byte) :
    ∀ (done rest : List Byte), name.length < rest.length →
      apply_writes (done ++ rest)
          (stores_at done.length name ++ [(done.length + name.length, 0)])
        = some (done ++ name ++ 0 :: rest.drop (name.length + 1)) := by
  induction name with
  | nil =>
    intro done rest h
    cases rest with
    | nil => simp at h
    | cons r rest =>
      simp [stores_at, apply_writes, set_append_head]
  | cons b bs ih =>
    intro done rest h
    cases rest with
    | nil => simp at h
    | cons r rest =>
      have h2 : bs.length < rest.length := by simpa using h
      have := ih (done ++ [b]) rest h2
      simp only [List.length_append, List.length_singleton, List.append_assoc,
        List.singleton_append] at this
      simp only [stores_at, List.cons_append, apply_writes, List.length_append,
        List.length_cons, set_append_head, List.append_eq]
      rw [if_pos (by omega)]
      have e : done.length + (bs.length + 1) = done.length + 1 + bs.length := by omega
      rw [e, this]
      simp
/-! ## The method scan -/

theorem negotiate_loop_eq_zero_iff (request : List Byte) (N : Nat) (hN : N + 2 ≤ 1024) :
    ∀ (fuel i : Nat) (method : Byte), i < N + 2 → N + 2 ≤ i + fuel →
      (negotiate_loop request N fuel i method = 0 ↔
        ∃ j, i ≤ j ∧ j < N + 2 ∧ request.getD j 0 = 0) := by
  intro fuel
  induction fuel with
  | zero => intro i method h1 h2; omega
  | succ fuel ih =>
    intro i method h1 h2
    have hc : i < N + 2 ∧ i < 1024 := ⟨h1, by omega⟩
    simp only [negotiate_loop, hc, and_self, if_true]
    by_cases hz : request.getD i 0 = 0
    · simp only [hz, if_true, true_iff]
      exact ⟨i, le_refl _, h1, hz⟩
    · simp only [hz, if_false]
      by_cases hlast : i + 1 < N + 2
      · rw [ih (i + 1) _ hlast (by omega)]
        constructor
        · rintro ⟨j, hj1, hj2, hj3⟩
          exact ⟨j, by omega, hj2, hj3⟩
        · rintro ⟨j, hj1, hj2, hj3⟩
          have : j ≠ i := by
            rintro rfl
            exact hz hj3
          exact ⟨j, by omega, hj2, hj3⟩
      · have hstop : negotiate_loop request N fuel (i + 1) (request.getD i 0)
            = request.getD i 0 := by
          cases fuel with
          | zero => rfl
          | succ f =>
            have : ¬ (i + 1 < N + 2 ∧ i + 1 < 1024) := fun h => hlast h.1
            simp only [negotiate_loop, this, if_false]
        rw [hstop]
        constructor
        · intro h; exact absurd h hz
        · rintro ⟨j, hj1, hj2, hj3⟩
          have : j = i := by omega
          subst this
          exact absurd hj3 hz

/-- The method selected is 0x00 or 0xFF, whatever the request buffer holds. -/
theorem selected_method_cases (request : List Byte) (method0 : Byte) :
    selected_method request method0 = 0x00 ∨ selected_method request method0 = 0xFF := by
  unfold selected_method
  by_cases h : negotiate_loop request (request.getD 1 0).val 1024 2 method0 = 0
  · left
    simp only [ne_eq, h, not_true_eq_false, if_false]
  · right
    simp only [ne_eq, h, not_false_eq_true, if_true]

/-- With a method count of at least 1, the scan selects 0x00 exactly when one of
the positions `2 .. nmethods + 1` of the request buffer holds 0x00. -/
theorem selected_method_eq_zero_iff (request : List Byte) (method0 : Byte)
    (hN : 1 ≤ (request.getD 1 0).val) :
    selected_method request method0 = 0x00 ↔
      ∃ j, 2 ≤ j ∧ j < (request.getD 1 0).val + 2 ∧ request.getD j 0 = 0 := by
  have hlt := (request.getD 1 0).isLt
  have key := negotiate_loop_eq_zero_iff request (request.getD 1 0).val (by omega)
    1024 2 method0 (by omega) (by omega)
  unfold selected_method
  by_cases h : negotiate_loop request (request.getD 1 0).val 1024 2 method0 = 0
  · simp only [ne_eq, h, not_true_eq_false, if_false, true_iff]
    exact key.mp h
  · have h2 : ¬ ∃ j, 2 ≤ j ∧ j < (request.getD 1 0).val + 2 ∧ request.getD j 0 = 0 :=
      fun hx => h (key.mpr hx)
    simp only [ne_eq, h, not_false_eq_true, if_true, h2, iff_false]
    decide

/-- What `negotiate_auth_method` does once the length and version checks pass. -/
theorem negotiate_auth_method_of_ver (clientfd : Int) (msg : List Byte) (method0 : Byte)
    (send_ret : Int) (hlen : 3 ≤ msg.length) (hver : msg.getD 0 0 = SOCKS5_VER) :
    negotiate_auth_method clientfd (some msg) method0 send_ret =
      ⟨[.recv clientfd 1024,
        .send clientfd [SOCKS5_VER, selected_method (recv_buf 1024 (some msg)) method0]],
       if send_ret = 2 ∧ selected_method (recv_buf 1024 (some msg)) method0 ≠ SOCKS5_UNSUPP_METHOD
       then 0 else -1⟩ := by
  have h1 : ¬ recv_nbytes 1024 (some msg) < 3 := by
    rw [recv_nbytes_some]; omega
  have h2 : (recv_buf 1024 (some msg)).getD 0 0 = SOCKS5_VER := by
    rw [getD_recv_buf]; simpa using hver
  unfold negotiate_auth_method
  simp only [h1, if_false, h2, ne_eq, not_true_eq_false]
  by_cases hs : send_ret = 2
  · by_cases hm : selected_method (recv_buf 1024 (some msg)) method0 = SOCKS5_UNSUPP_METHOD
    · simp [hs, hm]
    · simp [hs, hm]
  · simp [hs]

/-- The only socket calls of `negotiate_auth_method` are its `recv` and at most
one `send`. -/
theorem negotiate_auth_method_trace (clientfd : Int) (rx : Option (List Byte))
    (method0 : Byte) (send_ret : Int) :
    (negotiate_auth_method clientfd rx method0 send_ret).trace = [.recv clientfd 1024] ∨
    ∃ buf, (negotiate_auth_method clientfd rx method0 send_ret).trace
      = [.recv clientfd 1024, .send clientfd buf] := by
  unfold negotiate_auth_method
  simp only
  split
  · left; rfl
  · split
    · left; rfl
    · right
      split
      · exact ⟨_, rfl⟩
      · split <;> exact ⟨_, rfl⟩

/-! ## Rejected requests -/

/-- A request that fails one of the four checks at the head of `parse_request`
is rejected with no store to `addr` or `*port`. -/
theorem parse_request_reject (clientfd : Int) (addr_size : Nat) (rx : Option (List Byte))
    (h : recv_nbytes 1024 rx ≤ 5 ∨ (recv_buf 1024 rx).getD 0 0 ≠ SOCKS5_VER ∨
      (recv_buf 1024 rx).getD 1 0 ≠ 1 ∨
      ((recv_buf 1024 rx).getD 3 0 ≠ SOCKS5_IPV4 ∧
        (recv_buf 1024 rx).getD 3 0 ≠ SOCKS5_DOMAINNAME ∧
        (recv_buf 1024 rx).getD 3 0 ≠ SOCKS5_IPV6)) :
    (parse_request clientfd addr_size rx).ret = -1 ∧
    (parse_request clientfd addr_size rx).trace = [.recv clientfd 1024] ∧
    (parse_request clientfd addr_size rx).addr_writes = [] ∧
    (parse_request clientfd addr_size rx).port = none := by
  unfold parse_request
  simp only
  split
  · exact ⟨rfl, rfl, rfl, rfl⟩
  · split
    · exact ⟨rfl, rfl, rfl, rfl⟩
    · split
      · exact ⟨rfl, rfl, rfl, rfl⟩
      · split
        · exact ⟨rfl, rfl, rfl, rfl⟩
        · rename_i h1 h2 h3 h4
          rcases h with h | h | h | h
          · exact absurd h h1
          · exact absurd h.symm h2
          · exact absurd h h3
          · exact absurd h h4

/-! ## Accepted requests -/

/-- The `int` expression `hi << 8 | lo` on two bytes. -/
theorem shift_or_bytes (hi lo : Byte) : hi.val <<< 8 ||| lo.val = 256 * hi.val + lo.val := by
  have h := Nat.mul_add_lt_is_or (show lo.val < 2 ^ 8 from lo.isLt) hi.val
  rw [Nat.shiftLeft_eq, Nat.mul_comm]
  exact h.symm

/-- The domain-name branch of `parse_request`, for whatever `recv` delivered. -/
theorem parse_request_domain (clientfd : Int) (addr_size : Nat) (rx : Option (List Byte))
    (hn : 5 < recv_nbytes 1024 rx) (hv : (recv_buf 1024 rx).getD 0 0 = SOCKS5_VER)
    (hc : (recv_buf 1024 rx).getD 1 0 = 1)
    (ha : (recv_buf 1024 rx).getD 3 0 = SOCKS5_DOMAINNAME) :
    parse_request clientfd addr_size rx =
      ⟨[.recv clientfd 1024],
       if recv_nbytes 1024 rx - 5 - 2 < (((recv_buf 1024 rx).getD 4 0).val : Int)
         then [.nbytes_too_small] else [],
       stores_at 0 (strncpy ((recv_buf 1024 rx).drop 5) ((recv_buf 1024 rx).getD 4 0).val)
         ++ [(((recv_buf 1024 rx).getD 4 0).val, 0)],
       some (256 * ((recv_buf 1024 rx).getD (5 + ((recv_buf 1024 rx).getD 4 0).val) 0).val
         + ((recv_buf 1024 rx).getD (5 + ((recv_buf 1024 rx).getD 4 0).val + 1) 0).val),
       0⟩ := by
  have h1 : ¬ recv_nbytes 1024 rx ≤ 5 := by omega
  unfold parse_request
  simp only [h1, if_false, hv, hc, ha, ne_eq, not_true_eq_false, shift_or_bytes]
  rfl

/-- The raw-address branch of `parse_request` (`ATYP` 0x01 with `addr_len = 4`,
`ATYP` 0x04 with `addr_len = 16`), for whatever `recv` delivered. -/
theorem parse_request_ip (clientfd : Int) (addr_size : Nat) (rx : Option (List Byte))
    (addr_len : Nat)
    (hn : 5 < recv_nbytes 1024 rx) (hv : (recv_buf 1024 rx).getD 0 0 = SOCKS5_VER)
    (hc : (recv_buf 1024 rx).getD 1 0 = 1)
    (ha : ((recv_buf 1024 rx).getD 3 0 = SOCKS5_IPV4 ∧ addr_len = 4) ∨
      ((recv_buf 1024 rx).getD 3 0 = SOCKS5_IPV6 ∧ addr_len = 16)) :
    parse_request clientfd addr_size rx =
      ⟨[.recv clientfd 1024],
       if recv_nbytes 1024 rx - 5 - 2 < (addr_len : Int) then [.nbytes_too_small] else [],
       stores_at 0 (strncpy ((recv_buf 1024 rx).drop 3) (addr_len - 1)) ++ [(addr_len, 0)],
       some (256 * ((recv_buf 1024 rx).getD (3 + addr_len) 0).val
         + ((recv_buf 1024 rx).getD (3 + addr_len + 1) 0).val),
       0⟩ := by
  have h1 : ¬ recv_nbytes 1024 rx ≤ 5 := by omega
  unfold parse_request
  rcases ha with ⟨ha, rfl⟩ | ⟨ha, rfl⟩
  · simp only [h1, if_false, hv, hc, ha, ne_eq, not_true_eq_false, shift_or_bytes]
    rfl
  · simp only [h1, if_false, hv, hc, ha, ne_eq, not_true_eq_false, shift_or_bytes]
    rfl

/-- For a domain-name request the port is read from the two bytes that follow
the name. -/
theorem parse_request_domain_port (clientfd : Int) (addr_size : Nat) (rsv L p0 p1 : Byte)
    (name extra : List Byte) (hlen : name.length = L.val) :
    (parse_request clientfd addr_size
      (some (0x05 :: 0x01 :: rsv :: 0x03 :: L :: (name ++ p0 :: p1 :: extra)))).port
      = some (256 * p0.val + p1.val) := by
  have hLlt := L.isLt
  have hn : 5 < recv_nbytes 1024
      (some (0x05 :: 0x01 :: rsv :: 0x03 :: L :: (name ++ p0 :: p1 :: extra))) := by
    rw [recv_nbytes_some]
    simp only [List.length_cons, List.length_append]
    omega
  have h4 : (recv_buf 1024
      (some (0x05 :: 0x01 :: rsv :: 0x03 :: L :: (name ++ p0 :: p1 :: extra)))).getD 4 0
        = L := by
    rw [getD_recv_buf]; rfl
  have hp0 : (recv_buf 1024
      (some (0x05 :: 0x01 :: rsv :: 0x03 :: L :: (name ++ p0 :: p1 :: extra)))).getD
        (5 + L.val) 0 = p0 := by
    rw [getD_recv_buf, if_pos (by omega), Nat.add_comm]
    simp only [List.getD_cons_succ]
    rw [List.getD_append_right _ _ _ _ (by omega), ← hlen, Nat.sub_self]
    rfl
  have hp1 : (recv_buf 1024
      (some (0x05 :: 0x01 :: rsv :: 0x03 :: L :: (name ++ p0 :: p1 :: extra)))).getD
        (5 + L.val + 1) 0 = p1 := by
    rw [getD_recv_buf, if_pos (by omega)]
    have e : 5 + L.val + 1 = (L.val + 1) + 5 := by omega
    rw [e]
    simp only [List.getD_cons_succ]
    rw [List.getD_append_right _ _ _ _ (by omega), ← hlen]
    have e2 : name.length + 1 - name.length = 1 := by omega
    rw [e2]
    rfl
  rw [parse_request_domain clientfd addr_size _ hn (by rw [getD_recv_buf]; rfl)
    (by rw [getD_recv_buf]; rfl) (by rw [getD_recv_buf]; rfl)]
  simp only [h4, hp0, hp1]

/-- For an IPv4 request `05 01 rsv 01 a0 a1 a2 a3 p0 p1 ..` the code copies the
three bytes at message positions 3 to 5 (the ATYP byte and the first two address
bytes, up to a NUL) and reads the port from positions 7 and 8 (the last address
byte and the first port byte). -/
theorem parse_request_ipv4 (clientfd : Int) (addr_size : Nat) (rsv a0 a1 a2 a3 p0 p1 : Byte)
    (extra : List Byte) :
    parse_request clientfd addr_size
      (some (0x05 :: 0x01 :: rsv :: 0x01 :: a0 :: a1 :: a2 :: a3 :: p0 :: p1 :: extra))
      = ⟨[.recv clientfd 1024],
         if extra.length = 0 then [.nbytes_too_small] else [],
         stores_at 0 (strncpy [0x01, a0, a1] 3) ++ [(4, 0)],
         some (256 * a3.val + p0.val), 0⟩ := by
  have hn : recv_nbytes 1024
      (some (0x05 :: 0x01 :: rsv :: 0x01 :: a0 :: a1 :: a2 :: a3 :: p0 :: p1 :: extra))
        = ((min 1024 (extra.length + 10) : Nat) : Int) := by
    rw [recv_nbytes_some]
    simp only [List.length_cons]
  obtain ⟨tail, htail⟩ := recv_buf_append 1024 [0x05, 0x01, rsv, 0x01, a0, a1, a2, a3, p0, p1]
    extra (by simp)
  have e : (0x05 :: 0x01 :: rsv :: 0x01 :: a0 :: a1 :: a2 :: a3 :: p0 :: p1 :: extra : List Byte)
      = [0x05, 0x01, rsv, 0x01, a0, a1, a2, a3, p0, p1] ++ extra := rfl
  rw [parse_request_ip clientfd addr_size _ 4 (by rw [hn]; omega)
    (by rw [getD_recv_buf]; rfl) (by rw [getD_recv_buf]; rfl)
    (Or.inl ⟨by rw [getD_recv_buf]; rfl, rfl⟩)]
  have hs : strncpy ((recv_buf 1024 (some (0x05 :: 0x01 :: rsv :: 0x01 :: a0 :: a1 :: a2 :: a3
      :: p0 :: p1 :: extra))).drop 3) (4 - 1) = strncpy [0x01, a0, a1] 3 := by
    rw [e, htail]
    rfl
  have hd : (if recv_nbytes 1024 (some (0x05 :: 0x01 :: rsv :: 0x01 :: a0 :: a1 :: a2 :: a3
      :: p0 :: p1 :: extra)) - 5 - 2 < ((4 : Nat) : Int) then [Diag.nbytes_too_small] else [])
      = if extra.length = 0 then [Diag.nbytes_too_small] else [] := by
    rw [hn]
    by_cases h0 : extra.length = 0
    · rw [if_pos h0, if_pos (by rw [h0]; decide)]
    · rw [if_neg h0, if_neg (by omega)]
  rw [hs, hd, e, htail]
  rfl

/-- The reply `send_reply` hands to `send`, for every status byte: 17 bytes, of
which the last two are whatever the stack held. -/
theorem send_reply_trace (clientfd : Int) (rep : Byte) (garbage : Nat → Byte)
    (send_ret : Int) :
    (send_reply clientfd rep garbage send_ret).trace =
      [.send clientfd [0x05, rep, 0x00, 0x03, 0x08, 0x30, 0x2E, 0x30, 0x2E, 0x30, 0x2E, 0x30,
        0x00, 0x00, 0x00, garbage 15, garbage 16]] := by
  unfold send_reply
  simp only
  split <;> rfl

/-- The IPv6 branch reads the port one byte early as well: for the request
`05 01 00 04 ::1 00 50` it takes the last address byte and the first port byte. -/
theorem parse_request_ipv6_port_scenario :
    (parse_request 7 47
      (some [0x05, 0x01, 0x00, 0x04, 0x00, 0x00, 0x00, 0x00, 0x00, 0x00, 0x00, 0x00, 0x00, 0x00,
        0x00, 0x00, 0x00, 0x00, 0x00, 0x01, 0x00, 0x50])).port = some 256 := by
  decide

/-! ## The worker's run -/

theorem toDigitsCore_ne_nil (base : Nat) :
    ∀ (fuel n : Nat) (ds : List Char), ds ≠ [] ∨ 0 < fuel →
      Nat.toDigitsCore base fuel n ds ≠ [] := by
  intro fuel
  induction fuel with
  | zero =>
    intro n ds h
    rcases h with h | h
    · simpa [Nat.toDigitsCore] using h
    · omega
  | succ fuel ih =>
    intro n ds _
    simp only [Nat.toDigitsCore]
    split
    · simp
    · exact ih _ _ (Or.inl (by simp))

/-- `snprintf` with `"%d"` reports at least one character. -/
theorem snprintf_d_pos (size n : Nat) : ¬ (snprintf_d size n).2 ≤ 0 := by
  have h : Nat.toDigits 10 n ≠ [] := toDigitsCore_ne_nil 10 (n + 1) n [] (Or.inr (by omega))
  have hl : 0 < (decimal_text n).length := by
    unfold decimal_text
    rw [List.length_map]
    exact List.length_pos.mpr h
  simp only [snprintf_d]
  omega

theorem parse_request_addr_size (clientfd : Int) (n m : Nat) (rx : Option (List Byte)) :
    parse_request clientfd n rx = parse_request clientfd m rx := rfl

/-- The only socket call of `parse_request` is its `recv`. -/
theorem parse_request_trace (clientfd : Int) (addr_size : Nat) (rx : Option (List Byte)) :
    (parse_request clientfd addr_size rx).trace = [.recv clientfd 1024] := by
  unfold parse_request
  simp only
  split
  · rfl
  · split
    · rfl
    · split
      · rfl
      · split
        · rfl
        · split <;> rfl

/-- The return value of `send_reply` is 0 or -1. -/
theorem send_reply_ret (clientfd : Int) (rep : Byte) (garbage : Nat → Byte)
    (send_ret : Int) :
    (send_reply clientfd rep garbage send_ret).ret = 0 ∨
    (send_reply clientfd rep garbage send_ret).ret = -1 := by
  unfold send_reply
  simp only
  split
  · right; rfl
  · left; rfl

/-- Whenever `parse_request` does not fail it has stored a value to `*port`. -/
theorem parse_request_port_stored (clientfd : Int) (addr_size : Nat)
    (rx : Option (List Byte)) (h : ¬ (parse_request clientfd addr_size rx).ret < 0) :
    ∃ port, (parse_request clientfd addr_size rx).port = some port := by
  by_cases hrej : recv_nbytes 1024 rx ≤ 5 ∨ (recv_buf 1024 rx).getD 0 0 ≠ SOCKS5_VER ∨
      (recv_buf 1024 rx).getD 1 0 ≠ 1 ∨
      ((recv_buf 1024 rx).getD 3 0 ≠ SOCKS5_IPV4 ∧
        (recv_buf 1024 rx).getD 3 0 ≠ SOCKS5_DOMAINNAME ∧
        (recv_buf 1024 rx).getD 3 0 ≠ SOCKS5_IPV6)
  · have hret := (parse_request_reject clientfd addr_size rx hrej).1
    rw [hret] at h
    exact absurd (by decide) h
  · simp only [not_or, not_and_or, not_not, not_le, ne_eq] at hrej
    obtain ⟨hn, hv, hc, ha⟩ := hrej
    rcases ha with ha | ha | ha
    · rw [parse_request_ip clientfd addr_size rx 4 hn hv hc (Or.inl ⟨ha, rfl⟩)]
      exact ⟨_, rfl⟩
    · rw [parse_request_domain clientfd addr_size rx hn hv hc ha]
      exact ⟨_, rfl⟩
    · rw [parse_request_ip clientfd addr_size rx 16 hn hv hc (Or.inr ⟨ha, rfl⟩)]
      exact ⟨_, rfl⟩

theorem length_strncpy (src : List Byte) (n : Nat) : (strncpy src n).length = n := by
  unfold strncpy
  have h1 : ((src.take n).takeWhile (fun b => b ≠ 0)).length ≤ (src.take n).length :=
    (List.takeWhile_sublist _).length_le
  have h2 : (src.take n).length ≤ n := by
    rw [List.length_take]
    exact Nat.min_le_left _ _
  simp only [List.length_append, List.length_replicate]
  omega

theorem stores_at_lt (bs : List Byte) :
    ∀ (off : Nat) (w : Nat × Byte), w ∈ stores_at off bs → w.1 < off + bs.length := by
  induction bs with
  | nil => intro off w h; simp [stores_at] at h
  | cons b bs ih =>
    intro off w h
    simp only [stores_at, List.mem_cons] at h
    rcases h with rfl | h
    · simp
    · have := ih (off + 1) w h
      simp only [List.length_cons]
      omega

/-- Every store `parse_request` makes through `addr` has an index below 256:
the stores that leave the 47 bytes of `addr` stay within the 256 bytes that
begin at `addr`. -/
theorem parse_request_writes_lt (clientfd : Int) (addr_size : Nat)
    (rx : Option (List Byte)) :
    ∀ w ∈ (parse_request clientfd addr_size rx).addr_writes, w.1 < 256 := by
  intro w hw
  unfold parse_request at hw
  simp only at hw
  split at hw
  · simp at hw
  · split at hw
    · simp at hw
    · split at hw
      · simp at hw
      · split at hw
        · simp at hw
        · split at hw
          · simp at hw
          · rename_i addr_len hsw
            have hlen : addr_len ≤ 255 := by
              have hb := ((recv_buf 1024 rx).getD 4 0).isLt
              split at hsw
              · simp only [Option.some.injEq] at hsw; omega
              · split at hsw
                · simp only [Option.some.injEq] at hsw; omega
                · split at hsw
                  · simp only [Option.some.injEq] at hsw; omega
                  · simp at hsw
            simp only [List.mem_append, List.mem_singleton] at hw
            rcases hw with hw | rfl
            · have h := stores_at_lt _ 0 w hw
              split at h
              · rw [length_strncpy] at h; omega
              · rw [length_strncpy] at h; omega
            · simp only; omega

/-- The four ways a run of `serve_socks_client` can go: negotiation fails; the
request is rejected; the reply is a failure reply or cannot be written; the
relay is entered. -/
theorem serve_socks_client_cases (clientfd : Int) (env : Env) :
    ((negotiate_auth_method clientfd env.negotiation_rx env.method_garbage
        env.method_send_ret).ret < 0 ∧
      serve_socks_client clientfd env =
        (negotiate_auth_method clientfd env.negotiation_rx env.method_garbage
          env.method_send_ret).trace ++ [.close clientfd]) ∨
    (¬ (negotiate_auth_method clientfd env.negotiation_rx env.method_garbage
        env.method_send_ret).ret < 0 ∧
      (parse_request clientfd (INET6_ADDRSTRLEN + 1) env.request_rx).ret < 0 ∧
      serve_socks_client clientfd env =
        (negotiate_auth_method clientfd env.negotiation_rx env.method_garbage
          env.method_send_ret).trace ++ [.recv clientfd 1024] ++ [.close clientfd]) ∨
    (¬ (negotiate_auth_method clientfd env.negotiation_rx env.method_garbage
        env.method_send_ret).ret < 0 ∧
      ¬ (parse_request clientfd (INET6_ADDRSTRLEN + 1) env.request_rx).ret < 0 ∧
      ((send_reply clientfd (if env.connect_ret < 0 then SOCKS5_CONN_FAIL
          else SOCKS5_CONN_SUCCEED) env.reply_garbage env.reply_send_ret).ret < 0 ∨
        env.connect_ret < 0) ∧
      ∃ a p, serve_socks_client clientfd env =
        (negotiate_auth_method clientfd env.negotiation_rx env.method_garbage
          env.method_send_ret).trace ++ [.recv clientfd 1024] ++ [.create_connection a p]
          ++ (send_reply clientfd (if env.connect_ret < 0 then SOCKS5_CONN_FAIL
            else SOCKS5_CONN_SUCCEED) env.reply_garbage env.reply_send_ret).trace
          ++ [.close env.connect_ret, .close clientfd]) ∨
    (¬ (negotiate_auth_method clientfd env.negotiation_rx env.method_garbage
        env.method_send_ret).ret < 0 ∧
      ¬ (parse_request clientfd (INET6_ADDRSTRLEN + 1) env.request_rx).ret < 0 ∧
      ¬ (send_reply clientfd SOCKS5_CONN_SUCCEED env.reply_garbage env.reply_send_ret).ret < 0 ∧
      ¬ env.connect_ret < 0 ∧
      ∃ a p cleanup, serve_socks_client clientfd env =
        (negotiate_auth_method clientfd env.negotiation_rx env.method_garbage
          env.method_send_ret).trace ++ [.recv clientfd 1024] ++ [.create_connection a p]
          ++ (send_reply clientfd SOCKS5_CONN_SUCCEED env.reply_garbage
            env.reply_send_ret).trace
          ++ [.tunnel_sockets clientfd env.connect_ret] ++ cleanup ∧
        (cleanup = [] ∨ cleanup = [.close env.connect_ret, .close clientfd] ∨
          cleanup = [.close clientfd])) := by
  have hsz : (stack_buf (INET6_ADDRSTRLEN + 1) env.addr_garbage).length
      = INET6_ADDRSTRLEN + 1 := by
    simp [stack_buf]
  unfold serve_socks_client
  simp only [hsz, parse_request_trace]
  by_cases h1 : (negotiate_auth_method clientfd env.negotiation_rx env.method_garbage
      env.method_send_ret).ret < 0
  · left
    exact ⟨h1, by rw [if_pos h1]⟩
  · right
    rw [if_neg h1]
    by_cases h2 : (parse_request clientfd (INET6_ADDRSTRLEN + 1) env.request_rx).ret < 0
    · left
      exact ⟨h1, h2, by rw [if_pos h2]⟩
    · right
      rw [if_neg h2, if_neg (snprintf_d_pos 4 _)]
      by_cases h3 : env.connect_ret < 0
      · left
        refine ⟨h1, h2, Or.inr h3, ?_⟩
        simp only [if_pos h3]
        split
        · exact ⟨_, _, rfl⟩
        · exact ⟨_, _, rfl⟩
      · simp only [if_neg h3]
        by_cases h4 : (send_reply clientfd SOCKS5_CONN_SUCCEED env.reply_garbage
            env.reply_send_ret).ret < 0
        · left
          refine ⟨h1, h2, Or.inl h4, ?_⟩
          rw [if_pos h4]
          exact ⟨_, _, rfl⟩
        · right
          refine ⟨h1, h2, h4, h3, ?_⟩
          rw [if_neg h4, if_neg (by decide)]
          split
          · exact ⟨_, _, [], (List.append_nil _).symm, Or.inl rfl⟩
          · split
            · exact ⟨_, _, _, (List.append_assoc _ [_] _).symm, Or.inr (Or.inl rfl)⟩
            · exact ⟨_, _, _, (List.append_assoc _ [_] _).symm, Or.inr (Or.inr rfl)⟩

/-! ## The relay loop -/

/-- One iteration in which `select` fails. -/
theorem tunnel_loop_select_fail (fdmax : Int) (master : fd_set) (i j : Int) (r : Round)
    (rounds : List Round) (hsel : r.select_ret = -1) :
    tunnel_loop fdmax master i j (r :: rounds)
      = ⟨[.select (fdmax + 1) master], some (-1)⟩ := by
  simp only [tunnel_loop, if_pos hsel]

/-- One iteration in which the socket whose turn it is is not reported
readable: nothing is read, and the turn passes to the other socket. -/
theorem tunnel_loop_idle (fdmax : Int) (master : fd_set) (i j : Int) (r : Round)
    (rounds : List Round) (hsel : r.select_ret ≠ -1) (hready : FD_ISSET i r.read_fds = false) :
    tunnel_loop fdmax master i j (r :: rounds)
      = (tunnel_loop fdmax master j i rounds).after [.select (fdmax + 1) master] := by
  simp only [tunnel_loop, if_neg hsel, hready, Bool.false_eq_true, if_false]

/-- One iteration in which `recv` fails. -/
theorem tunnel_loop_recv_error (fdmax : Int) (master : fd_set) (i j : Int) (r : Round)
    (rounds : List Round) (hsel : r.select_ret ≠ -1) (hready : FD_ISSET i r.read_fds = true)
    (hn : recv_nbytes 16384 r.recv_rx < 0) :
    tunnel_loop fdmax master i j (r :: rounds)
      = ⟨[.select (fdmax + 1) master,
          .recv i (recv_nbytes 16384 r.recv_rx) (recv_data 16384 r.recv_rx)], some (-1)⟩ := by
  have hle : recv_nbytes 16384 r.recv_rx ≤ 0 := by omega
  simp only [tunnel_loop, if_neg hsel, hready, if_true, if_pos hle, if_pos hn]

/-- One iteration in which `recv` returns 0: the socket read is closed and
cleared from `master`, and the loop goes on with the other socket. -/
theorem tunnel_loop_eof (fdmax : Int) (master : fd_set) (i j : Int) (r : Round)
    (rounds : List Round) (hsel : r.select_ret ≠ -1) (hready : FD_ISSET i r.read_fds = true)
    (hn : recv_nbytes 16384 r.recv_rx = 0) :
    tunnel_loop fdmax master i j (r :: rounds)
      = (tunnel_loop fdmax (FD_CLR i master) j i rounds).after
          [.select (fdmax + 1) master,
           .recv i (recv_nbytes 16384 r.recv_rx) (recv_data 16384 r.recv_rx), .close i] := by
  have hle : recv_nbytes 16384 r.recv_rx ≤ 0 := by omega
  have hlt : ¬ recv_nbytes 16384 r.recv_rx < 0 := by omega
  simp only [tunnel_loop, if_neg hsel, hready, if_true, if_pos hle, if_neg hlt]

/-- One iteration in which a chunk is received and handed to `send`. -/
theorem tunnel_loop_forward (fdmax : Int) (master : fd_set) (i j : Int) (r : Round)
    (rounds : List Round) (hsel : r.select_ret ≠ -1) (hready : FD_ISSET i r.read_fds = true)
    (hn : 0 < recv_nbytes 16384 r.recv_rx) (hj : FD_ISSET j master = true)
    (hs : r.send_ret ≠ -1) :
    tunnel_loop fdmax master i j (r :: rounds)
      = (tunnel_loop fdmax master j i rounds).after
          [.select (fdmax + 1) master,
           .recv i (recv_nbytes 16384 r.recv_rx) (recv_data 16384 r.recv_rx),
           .send j (recv_data 16384 r.recv_rx)] := by
  have hle : ¬ recv_nbytes 16384 r.recv_rx ≤ 0 := by omega
  simp only [tunnel_loop, if_neg hsel, hready, if_true, if_neg hle, hj, if_neg hs]

/-- One iteration in which a chunk is received and `send` fails. -/
theorem tunnel_loop_send_fail (fdmax : Int) (master : fd_set) (i j : Int) (r : Round)
    (rounds : List Round) (hsel : r.select_ret ≠ -1) (hready : FD_ISSET i r.read_fds = true)
    (hn : 0 < recv_nbytes 16384 r.recv_rx) (hj : FD_ISSET j master = true)
    (hs : r.send_ret = -1) :
    tunnel_loop fdmax master i j (r :: rounds)
      = ⟨[.select (fdmax + 1) master,
          .recv i (recv_nbytes 16384 r.recv_rx) (recv_data 16384 r.recv_rx),
          .send j (recv_data 16384 r.recv_rx)], some (-1)⟩ := by
  have hle : ¬ recv_nbytes 16384 r.recv_rx ≤ 0 := by omega
  simp only [tunnel_loop, if_neg hsel, hready, if_true, if_neg hle, hj, if_pos hs]

/-- One iteration in which a chunk is received while the other socket is no
longer in `master`: the chunk is dropped. -/
theorem tunnel_loop_drop (fdmax : Int) (master : fd_set) (i j : Int) (r : Round)
    (rounds : List Round) (hsel : r.select_ret ≠ -1) (hready : FD_ISSET i r.read_fds = true)
    (hn : 0 < recv_nbytes 16384 r.recv_rx) (hj : FD_ISSET j master = false) :
    tunnel_loop fdmax master i j (r :: rounds)
      = (tunnel_loop fdmax master j i rounds).after
          [.select (fdmax + 1) master,
           .recv i (recv_nbytes 16384 r.recv_rx) (recv_data 16384 r.recv_rx)] := by
  have hle : ¬ recv_nbytes 16384 r.recv_rx ≤ 0 := by omega
  simp only [tunnel_loop, if_neg hsel, hready, if_true, if_neg hle, hj, Bool.false_eq_true,
    if_false]

theorem forwarded_at_once_send (f : Int) (b : List Byte) (t : List RelayEvent) :
    forwarded_at_once (.send f b :: t) = forwarded_at_once t := rfl

/-- The relay loop never returns 0: it returns -1 or keeps running. -/
theorem tunnel_loop_ret (fdmax : Int) (rounds : List Round) :
    ∀ (master : fd_set) (i j : Int),
      (tunnel_loop fdmax master i j rounds).ret = none ∨
      (tunnel_loop fdmax master i j rounds).ret = some (-1) := by
  induction rounds with
  | nil => intro master i j; left; rfl
  | cons r rounds ih =>
    intro master i j
    unfold tunnel_loop
    simp only [RelayResult.after]
    split
    · right; rfl
    · split
      · split
        · split
          · right; rfl
          · exact ih _ _ _
        · split
          · split
            · right; rfl
            · exact ih _ _ _
          · exact ih _ _ _
      · exact ih _ _ _

theorem after_nil (x : RelayResult) : x.after [] = x := rfl

theorem after_after (x : RelayResult) (a b : List RelayEvent) :
    (x.after a).after b = x.after (b ++ a) := by
  simp [RelayResult.after]

theorem turn_swap (i j : Int) (n : Nat) : turn j i n = turn i j (n + 1) := by
  unfold turn
  rcases Nat.mod_two_eq_zero_or_one n with h | h
  · have h2 : (n + 1) % 2 = 1 := by omega
    simp [h, h2]
  · have h2 : (n + 1) % 2 = 0 := by omega
    simp [h, h2]

/-- What a loop that is still running does on one more round: the body runs
once, on the socket whose turn it is after `rounds.length` swaps, with the
`master` set from which the sockets closed so far have been cleared. -/
theorem tunnel_loop_snoc (fdmax : Int) (r : Round) (rounds : List Round) :
    ∀ (master : fd_set) (i j : Int), (tunnel_loop fdmax master i j rounds).ret = none →
      tunnel_loop fdmax master i j (rounds ++ [r]) =
        (tunnel_loop fdmax
          (master.filter (fun fd =>
            decide (RelayEvent.close fd ∉ (tunnel_loop fdmax master i j rounds).trace)))
          (turn i j rounds.length) (turn i j (rounds.length + 1)) [r]).after
          (tunnel_loop fdmax master i j rounds).trace := by
  induction rounds with
  | nil =>
    intro master i j _
    simp [tunnel_loop, after_nil, turn]
  | cons q rounds ih =>
    intro master i j hrun
    have hcont : ∀ (m' : fd_set) (evs : List RelayEvent),
        (∀ fd, RelayEvent.close fd ∈ evs → m' = FD_CLR fd master ∧ ∀ x, RelayEvent.close x ∈ evs → x = fd) →
        ((∀ fd, RelayEvent.close fd ∉ evs) → m' = master) →
        (∀ tl, tunnel_loop fdmax master i j (q :: tl)
          = (tunnel_loop fdmax m' j i tl).after evs) →
        tunnel_loop fdmax master i j (q :: rounds ++ [r]) =
          (tunnel_loop fdmax
            (master.filter (fun fd =>
              decide (RelayEvent.close fd ∉ (tunnel_loop fdmax master i j (q :: rounds)).trace)))
            (turn i j (q :: rounds).length) (turn i j ((q :: rounds).length + 1)) [r]).after
            (tunnel_loop fdmax master i j (q :: rounds)).trace := by
      intro m' evs hclr hsame hstep
      have hrun' : (tunnel_loop fdmax m' j i rounds).ret = none := by
        rw [hstep rounds] at hrun
        exact hrun
      have e := ih m' j i hrun'
      rw [List.cons_append, hstep (rounds ++ [r]), e, after_after, hstep rounds]
      rw [turn_swap i j rounds.length, turn_swap i j (rounds.length + 1)]
      simp only [RelayResult.after, List.length_cons]
      have hm : m'.filter (fun fd =>
            decide (RelayEvent.close fd ∉ (tunnel_loop fdmax m' j i rounds).trace))
          = master.filter (fun fd =>
            decide (RelayEvent.close fd ∉ evs ++ (tunnel_loop fdmax m' j i rounds).trace)) := by
        by_cases hc : ∃ fd, RelayEvent.close fd ∈ evs
        · obtain ⟨fd, hfd⟩ := hc
          obtain ⟨hmc, huniq⟩ := hclr fd hfd
          rw [hmc, FD_CLR, List.filter_filter]
          apply List.filter_congr
          intro x _
          by_cases hx : x = fd
          · subst hx
            simp [hfd]
          · have hxe : RelayEvent.close x ∉ evs := fun h => hx (huniq x h)
            simp [hx, hxe]
        · have hno : ∀ fd, RelayEvent.close fd ∉ evs := fun fd h => hc ⟨fd, h⟩
          rw [hsame hno]
          apply List.filter_congr
          intro x _
          simp [hno x]
      rw [hm]
    by_cases hsel : q.select_ret = -1
    · rw [tunnel_loop_select_fail fdmax master i j q rounds hsel] at hrun
      simp at hrun
    · cases hready : FD_ISSET i q.read_fds with
      | false =>
        exact hcont master _ (fun fd h => by simp at h) (fun _ => rfl)
          (fun tl => tunnel_loop_idle fdmax master i j q tl hsel hready)
      | true =>
        rcases Int.lt_trichotomy (recv_nbytes 16384 q.recv_rx) 0 with hn | hn | hn
        · rw [tunnel_loop_recv_error fdmax master i j q rounds hsel hready hn] at hrun
          simp at hrun
        · exact hcont (FD_CLR i master) _
            (fun fd h => by
              simp only [List.mem_cons, List.mem_singleton, List.not_mem_nil, or_false,
                RelayEvent.close.injEq, false_or] at h
              simp at h
              subst h
              exact ⟨rfl, fun x hx => by simpa using hx⟩)
            (fun hno => absurd (by simp) (hno i))
            (fun tl => tunnel_loop_eof fdmax master i j q tl hsel hready hn)
        · cases hj : FD_ISSET j master with
          | false =>
            exact hcont master _ (fun fd h => by simp at h) (fun _ => rfl)
              (fun tl => tunnel_loop_drop fdmax master i j q tl hsel hready hn hj)
          | true =>
            by_cases hs : q.send_ret = -1
            · rw [tunnel_loop_send_fail fdmax master i j q rounds hsel hready hn hj hs] at hrun
              simp at hrun
            · exact hcont master _ (fun fd h => by simp at h) (fun _ => rfl)
                (fun tl => tunnel_loop_forward fdmax master i j q tl hsel hready hn hj hs)

/-- The calls of one iteration of the loop in which `select` does not fail. -/
theorem tunnel_loop_single (fdmax : Int) (master : fd_set) (i j : Int) (r : Round)
    (hsel : r.select_ret ≠ -1) :
    (tunnel_loop fdmax master i j [r]).trace =
      RelayEvent.select (fdmax + 1) master ::
        (if FD_ISSET i r.read_fds = true then
          RelayEvent.recv i (recv_nbytes 16384 r.recv_rx) (recv_data 16384 r.recv_rx) ::
            (if 0 < recv_nbytes 16384 r.recv_rx then
              (if FD_ISSET j master = true then [RelayEvent.send j (recv_data 16384 r.recv_rx)]
               else [])
             else if recv_nbytes 16384 r.recv_rx = 0 then [RelayEvent.close i] else [])
         else []) := by
  cases hready : FD_ISSET i r.read_fds with
  | false =>
    rw [tunnel_loop_idle fdmax master i j r [] hsel hready]
    simp [RelayResult.after, tunnel_loop]
  | true =>
    rcases Int.lt_trichotomy (recv_nbytes 16384 r.recv_rx) 0 with hn | hn | hn
    · rw [tunnel_loop_recv_error fdmax master i j r [] hsel hready hn]
      have h1 : ¬ 0 < recv_nbytes 16384 r.recv_rx := by omega
      have h2 : ¬ recv_nbytes 16384 r.recv_rx = 0 := by omega
      simp [h1, h2]
    · rw [tunnel_loop_eof fdmax master i j r [] hsel hready hn]
      simp [RelayResult.after, tunnel_loop, hn]
    · cases hj : FD_ISSET j master with
      | false =>
        rw [tunnel_loop_drop fdmax master i j r [] hsel hready hn hj]
        simp [RelayResult.after, tunnel_loop, hn]
      | true =>
        by_cases hs : r.send_ret = -1
        · rw [tunnel_loop_send_fail fdmax master i j r [] hsel hready hn hj hs]
          simp [hn]
        · rw [tunnel_loop_forward fdmax master i j r [] hsel hready hn hj hs]
          simp [RelayResult.after, tunnel_loop, hn]

/-- A run call by call: socket 4 reaches end-of-stream in iteration 0, a chunk of
socket 5 is dropped in iteration 1, iteration 2 (the turn of socket 4) makes no
`recv` though `select` reports socket 5, iteration 3 reads socket 5. -/
theorem relay_after_eof_scenario :
    tunnel_sockets 4 5
      [⟨1, [4], some [], 0⟩, ⟨1, [5], some [0x41], 1⟩, ⟨1, [5], some [0x42], 1⟩,
       ⟨1, [5], some [0x42], 1⟩]
      = ⟨[.select 6 [5, 4], .recv 4 0 [], .close 4,
          .select 6 [5], .recv 5 1 [0x41],
          .select 6 [5],
          .select 6 [5], .recv 5 1 [0x42]], none⟩ := by
  decide

/-- A sequence of stores with one index outside the buffer cannot be carried out. -/
theorem apply_writes_none (ws : List (Nat × Byte)) :
    ∀ buf : List Byte, (∃ w ∈ ws, buf.length ≤ w.1) → apply_writes buf ws = none := by
  induction ws with
  | nil =>
    intro buf h
    obtain ⟨w, hw, -⟩ := h
    simp at hw
  | cons w ws ih =>
    intro buf h
    obtain ⟨i, b⟩ := w
    simp only [apply_writes]
    by_cases hi : i < buf.length
    · rw [if_pos hi]
      apply ih
      obtain ⟨w', hw', hlen⟩ := h
      rcases List.mem_cons.mp hw' with rfl | hmem
      · exact absurd hi (by simpa using hlen)
      · exact ⟨w', hmem, by simpa using hlen⟩
    · rw [if_neg hi]

theorem length_stack_buf (n : Nat) (garbage : Nat → Byte) :
    (stack_buf n garbage).length = n := by
  simp [stack_buf]

/-- The loop of `tunnel_sockets` is left only with -1: for no answers of the
kernel does the function return 0. -/
theorem tunnel_sockets_ret (fd1 fd2 : Int) (rounds : List Round) :
    (tunnel_sockets fd1 fd2 rounds).ret = none ∨
    (tunnel_sockets fd1 fd2 rounds).ret = some (-1) :=
  tunnel_loop_ret fd2 rounds _ fd1 fd2

/-- When `pthread_create` fails with its error number (a positive value, here
`EAGAIN` = 11), the test `< 0` does not see it: the loop goes on and the
client's socket 5 is not closed. -/
theorem start_socks_server_pthread_scenario :
    start_socks_server 3 [⟨5, true, 11⟩, ⟨6, true, 0⟩]
      = ⟨[.accept 3, .pthread_create 5, .accept 3, .pthread_create 6, .accept 3], false⟩ := by
  decide

/-- A request whose name does not fit `addr` does not stop the worker: with a
domain name of 47 bytes and a failing upstream connect the run goes on to
`create_connection`, with the 47 name bytes as host, and to the reply. -/
theorem serve_socks_client_long_name_scenario :
    serve_socks_client 7
        ⟨some [0x05, 0x01, 0x00],
          some ([0x05, 0x01, 0x00, 0x03, 0x2F] ++ List.replicate 47 0x61 ++ [0x00, 0x50]),
          2, -1, 17, none, 0x2A, fun _ => 0xAA, fun _ => 0xBB⟩
      = [.recv 7 1024, .send 7 [0x05, 0x00], .recv 7 1024,
         .create_connection (List.replicate 47 0x61) [0x38, 0x30],
         .send 7 [0x05, 0x01, 0x00, 0x03, 0x08, 0x30, 0x2E, 0x30, 0x2E, 0x30, 0x2E, 0x30,
           0x00, 0x00, 0x00, 0xBB, 0xBB],
         .close (-1), .close 7] := by
  decide

/-! ## Claims -/

/-- C1: for every negotiation message `05 N m_1 .. m_N` (possibly followed by
more bytes) with `N ≥ 1`, `negotiate_auth_method` sends the method selection
`05 00` when 0x00 is one of the `N` offered methods, at any position, and
`05 FF` otherwise. -/
theorem negotiate_auth_method_selects (clientfd : Int) (N : Byte)
    (methods extra : List Byte) (method0 : Byte) (send_ret : Int)
    (hN : 1 ≤ N.val) (hall : methods.length = N.val) :
    (negotiate_auth_method clientfd (some (SOCKS5_VER :: N :: (methods ++ extra)))
        method0 send_ret).trace =
      [.recv clientfd 1024,
       .send clientfd [SOCKS5_VER, if (0x00 : Byte) ∈ methods then 0x00 else 0xFF]] := by
  have hNlt := N.isLt
  have hlen : 3 ≤ (SOCKS5_VER :: N :: (methods ++ extra)).length := by
    simp only [List.length_cons, List.length_append]; omega
  rw [negotiate_auth_method_of_ver clientfd _ method0 send_ret hlen (by rfl)]
  have hn : (recv_buf 1024 (some (SOCKS5_VER :: N :: (methods ++ extra)))).getD 1 0 = N := by
    rw [getD_recv_buf]; rfl
  have hget : ∀ j, 2 ≤ j → j < N.val + 2 →
      (recv_buf 1024 (some (SOCKS5_VER :: N :: (methods ++ extra)))).getD j 0
        = methods.getD (j - 2) 0 := by
    intro j h1 h2
    rw [getD_recv_buf, if_pos (by omega)]
    obtain ⟨k, rfl⟩ : ∃ k, j = k + 2 := ⟨j - 2, by omega⟩
    have hk : k < methods.length := by omega
    simp [List.getD_eq_getElem?_getD, List.getElem?_append_left hk]
  have hiff : selected_method (recv_buf 1024 (some (SOCKS5_VER :: N :: (methods ++ extra))))
      method0 = 0x00 ↔ (0x00 : Byte) ∈ methods := by
    rw [selected_method_eq_zero_iff _ _ (by rw [hn]; exact hN), hn]
    constructor
    · rintro ⟨j, h1, h2, h3⟩
      rw [hget j h1 h2] at h3
      have hk : j - 2 < methods.length := by omega
      rw [List.getD_eq_getElem?_getD, List.getElem?_eq_getElem hk] at h3
      simp only [Option.getD_some] at h3
      rw [← h3]
      exact List.getElem_mem hk
    · intro hmem
      obtain ⟨k, hk, hk0⟩ := List.getElem_of_mem hmem
      refine ⟨k + 2, by omega, by omega, ?_⟩
      rw [hget (k + 2) (by omega) (by omega)]
      simp [List.getD_eq_getElem?_getD, List.getElem?_eq_getElem hk, hk0]
  by_cases hmem : (0x00 : Byte) ∈ methods
  · rw [if_pos hmem, hiff.mpr hmem]
  · have hne : selected_method (recv_buf 1024 (some (SOCKS5_VER :: N :: (methods ++ extra))))
        method0 ≠ 0x00 := fun h => hmem (hiff.mp h)
    rw [if_neg hmem]
    rcases selected_method_cases
      (recv_buf 1024 (some (SOCKS5_VER :: N :: (methods ++ extra)))) method0 with h | h
    · exact absurd h hne
    · rw [h]

/-- Witness for C1: offering `{0x00}` yields `05 00`, offering `{0x01}` alone
yields `05 FF`. -/
theorem negotiate_auth_method_selects_witness :
    (negotiate_auth_method 7 (some [0x05, 0x01, 0x00]) 0x2A 2).trace
        = [.recv 7 1024, .send 7 [0x05, 0x00]] ∧
    (negotiate_auth_method 7 (some [0x05, 0x01, 0x01]) 0x2A 2).trace
        = [.recv 7 1024, .send 7 [0x05, 0xFF]] :=
  ⟨negotiate_auth_method_selects 7 0x01 [0x00] [] 0x2A 2 (by decide) (by decide),
   negotiate_auth_method_selects 7 0x01 [0x01] [] 0x2A 2 (by decide) (by decide)⟩

/-- C2: on the request `05 01 00 01 7F 00 00 01 00 50` (CONNECT to
127.0.0.1:80) `parse_request` returns 0 with port 256 = 256 * 0x01 + 0x00, made
of the last address byte and the first port byte, where the two bytes that
follow the address give 256 * 0x00 + 0x50 = 80. -/
theorem parse_request_ipv4_port_scenario :
    (parse_request 7 47
      (some [0x05, 0x01, 0x00, 0x01, 0x7F, 0x00, 0x00, 0x01, 0x00, 0x50])).ret = 0 ∧
    (parse_request 7 47
      (some [0x05, 0x01, 0x00, 0x01, 0x7F, 0x00, 0x00, 0x01, 0x00, 0x50])).port = some 256 ∧
    (parse_request 7 47
      (some [0x05, 0x01, 0x00, 0x01, 0x7F, 0x00, 0x00, 0x01, 0x00, 0x50])).port
      ≠ some (256 * 0x00 + 0x50) := by
  decide

/-- C3: on the request `05 01 00 01 7F 00 00 01 00 50` `parse_request` stores
`01 7F 00` at `addr[0..2]` and NUL at `addr[4]`, so that the host string left in
the 47-byte buffer of `serve_socks_client` is the two bytes `01 7F`, whatever the
buffer held before, and not the text `127.0.0.1`. -/
theorem parse_request_ipv4_host_scenario :
    (parse_request 7 47
      (some [0x05, 0x01, 0x00, 0x01, 0x7F, 0x00, 0x00, 0x01, 0x00, 0x50])).addr_writes
      = [(0, 0x01), (1, 0x7F), (2, 0x00), (4, 0x00)] ∧
    (∀ garbage : Nat → Byte,
      (apply_writes (stack_buf (INET6_ADDRSTRLEN + 1) garbage)
        (parse_request 7 47
          (some [0x05, 0x01, 0x00, 0x01, 0x7F, 0x00, 0x00, 0x01, 0x00, 0x50])).addr_writes).map
            c_string = some [0x01, 0x7F]) ∧
    ipv4_literal 0x7F 0x00 0x00 0x01
      = [0x31, 0x32, 0x37, 0x2E, 0x30, 0x2E, 0x30, 0x2E, 0x31] ∧
    ([0x01, 0x7F] : List Byte) ≠ ipv4_literal 0x7F 0x00 0x00 0x01 := by
  refine ⟨by decide, ?_, by decide, by decide⟩
  intro garbage
  rfl

/-- C4: for every CONNECT request `05 01 rsv 03 L name p0 p1 ..` whose `L` name
bytes are all non-zero, `parse_request` returns 0 and what it stores through
`addr` is exactly the `L` name bytes at positions `0 .. L-1` followed by the
terminating NUL at position `L`; in every buffer that has room for them the
resulting C string is the name, with no byte before it and none after it. -/
theorem parse_request_domain_host (clientfd : Int) (addr_size : Nat) (rsv L p0 p1 : Byte)
    (name extra : List Byte) (hlen : name.length = L.val) (hnz : ∀ b ∈ name, b ≠ 0) :
    (parse_request clientfd addr_size
      (some (0x05 :: 0x01 :: rsv :: 0x03 :: L :: (name ++ p0 :: p1 :: extra)))).ret = 0 ∧
    (parse_request clientfd addr_size
      (some (0x05 :: 0x01 :: rsv :: 0x03 :: L :: (name ++ p0 :: p1 :: extra)))).addr_writes
      = stores_at 0 name ++ [(name.length, 0)] ∧
    ∀ addr0 : List Byte, name.length < addr0.length →
      (apply_writes addr0 (parse_request clientfd addr_size
        (some (0x05 :: 0x01 :: rsv :: 0x03 :: L :: (name ++ p0 :: p1 :: extra)))).addr_writes).map
          c_string = some name := by
  have hLlt := L.isLt
  have hn : 5 < recv_nbytes 1024
      (some (0x05 :: 0x01 :: rsv :: 0x03 :: L :: (name ++ p0 :: p1 :: extra))) := by
    rw [recv_nbytes_some]
    simp only [List.length_cons, List.length_append]
    omega
  have h4 : (recv_buf 1024
      (some (0x05 :: 0x01 :: rsv :: 0x03 :: L :: (name ++ p0 :: p1 :: extra)))).getD 4 0
        = L := by
    rw [getD_recv_buf]; rfl
  have hpre : ([0x05, 0x01, rsv, 0x03, L] ++ name).length ≤ 1024 := by
    simp only [List.length_append, List.length_cons, List.length_nil]
    omega
  obtain ⟨tail, htail⟩ := recv_buf_append 1024 ([0x05, 0x01, rsv, 0x03, L] ++ name)
    (p0 :: p1 :: extra) hpre
  have hdrop : (recv_buf 1024
      (some (0x05 :: 0x01 :: rsv :: 0x03 :: L :: (name ++ p0 :: p1 :: extra)))).drop 5
        = name ++ tail := by
    have e : (0x05 :: 0x01 :: rsv :: 0x03 :: L :: (name ++ p0 :: p1 :: extra) : List Byte)
        = ([0x05, 0x01, rsv, 0x03, L] ++ name) ++ (p0 :: p1 :: extra) := by simp
    rw [e, htail]
    simp
  have hw : (parse_request clientfd addr_size
      (some (0x05 :: 0x01 :: rsv :: 0x03 :: L :: (name ++ p0 :: p1 :: extra)))).addr_writes
      = stores_at 0 name ++ [(name.length, 0)] := by
    rw [parse_request_domain clientfd addr_size _ hn (by rw [getD_recv_buf]; rfl)
      (by rw [getD_recv_buf]; rfl) (by rw [getD_recv_buf]; rfl)]
    simp only [h4, hdrop, ← hlen, strncpy_nonzero name tail hnz]
  refine ⟨?_, hw, ?_⟩
  · rw [parse_request_domain clientfd addr_size _ hn (by rw [getD_recv_buf]; rfl)
      (by rw [getD_recv_buf]; rfl) (by rw [getD_recv_buf]; rfl)]
  · intro addr0 hcap
    rw [hw]
    have := apply_writes_name name [] addr0 hcap
    simp only [List.length_nil, Nat.zero_add, List.nil_append] at this
    rw [this]
    simp only [Option.map_some', c_string, takeWhile_nonzero name _ hnz]

/-- Witness for C4: the request `05 01 00 03 02 'a' 'b' 1F 90`. -/
theorem parse_request_domain_host_witness :
    (parse_request 7 47
      (some (0x05 :: 0x01 :: 0x00 :: 0x03 :: 0x02 :: ([0x61, 0x62] ++ 0x1F :: 0x90 :: [])))).ret
      = 0 ∧
    (parse_request 7 47
      (some (0x05 :: 0x01 :: 0x00 :: 0x03 :: 0x02 :: ([0x61, 0x62] ++ 0x1F :: 0x90 :: [])))).addr_writes
      = stores_at 0 [0x61, 0x62] ++ [([0x61, 0x62].length, 0)] ∧
    ∀ addr0 : List Byte, [(0x61 : Byte), 0x62].length < addr0.length →
      (apply_writes addr0 (parse_request 7 47
        (some (0x05 :: 0x01 :: 0x00 :: 0x03 :: 0x02 :: ([0x61, 0x62] ++ 0x1F :: 0x90 :: [])))).addr_writes).map
          c_string = some [0x61, 0x62] :=
  parse_request_domain_host 7 47 0x00 0x02 0x1F 0x90 [0x61, 0x62] [] (by decide) (by simp)

/-- C5: with status 0x00 `send_reply` hands `send` the 17 bytes
`05 00 00 03 08 30 2E 30 2E 30 2E 30 00 00 00 g15 g16`, where `g15`, `g16` are
the uninitialised last two bytes of `reply`: the length byte is 8, not 7, and
the message is not the 14-byte reply `05 00 00 03 07 30 2E 30 2E 30 2E 30 00 00`. -/
theorem send_reply_success_scenario :
    ∀ (garbage : Nat → Byte) (send_ret : Int),
      (send_reply 7 0x00 garbage send_ret).trace =
        [.send 7 [0x05, 0x00, 0x00, 0x03, 0x08, 0x30, 0x2E, 0x30, 0x2E, 0x30, 0x2E, 0x30,
          0x00, 0x00, 0x00, garbage 15, garbage 16]] ∧
      (send_reply 7 0x00 garbage send_ret).trace ≠
        [.send 7 [0x05, 0x00, 0x00, 0x03, 0x07, 0x30, 0x2E, 0x30, 0x2E, 0x30, 0x2E, 0x30,
          0x00, 0x00]] := by
  intro garbage send_ret
  refine ⟨send_reply_trace 7 0x00 garbage send_ret, ?_⟩
  rw [send_reply_trace]
  intro h
  have h2 := congrArg (fun t => t.map (fun e => match e with
    | Event.send _ buf => buf.length
    | _ => 0)) h
  simp at h2

/-- C6: for every negotiation message of at least 3 bytes that starts with
0x05, `negotiate_auth_method` makes one `send`, of the two bytes
`[0x05, selected method]` with the selected method 0x00 or 0xFF, before it
returns; it returns 0 exactly when the selected method is 0x00 and `send`
reported 2 bytes written, and -1 otherwise, in particular whenever the selected
method is 0xFF. -/
theorem negotiate_auth_method_reply (clientfd : Int) (rest : List Byte) (method0 : Byte)
    (send_ret : Int) (hlen : 2 ≤ rest.length) :
    ∃ m : Byte, (m = 0x00 ∨ m = 0xFF) ∧
      (negotiate_auth_method clientfd (some (SOCKS5_VER :: rest)) method0 send_ret).trace
        = [.recv clientfd 1024, .send clientfd [0x05, m]] ∧
      ((negotiate_auth_method clientfd (some (SOCKS5_VER :: rest)) method0 send_ret).ret = 0
        ↔ (m = 0x00 ∧ send_ret = 2)) ∧
      ((negotiate_auth_method clientfd (some (SOCKS5_VER :: rest)) method0 send_ret).ret ≠ 0
        → (negotiate_auth_method clientfd (some (SOCKS5_VER :: rest)) method0 send_ret).ret
          = -1) ∧
      (m = 0xFF →
        (negotiate_auth_method clientfd (some (SOCKS5_VER :: rest)) method0 send_ret).ret
          = -1) := by
  have hl : 3 ≤ (SOCKS5_VER :: rest).length := by
    simp only [List.length_cons]; omega
  rw [negotiate_auth_method_of_ver clientfd _ method0 send_ret hl (by rfl)]
  refine ⟨selected_method (recv_buf 1024 (some (SOCKS5_VER :: rest))) method0,
    selected_method_cases _ _, rfl, ?_, ?_, ?_⟩
  · rcases selected_method_cases (recv_buf 1024 (some (SOCKS5_VER :: rest))) method0
      with h | h
    · by_cases hs : send_ret = 2
      · simp [h, hs]
        decide
      · simp [h, hs]
    · simp [h]
  · intro hne
    simp only at hne ⊢
    split
    · rename_i hc
      rw [if_pos hc] at hne
      exact absurd rfl hne
    · rfl
  · intro h
    simp [h]

/-- Witness for C6: the message `05 02 01 00` is answered `05 00`, and the
function returns 0 when `send` reports 2 bytes. -/
theorem negotiate_auth_method_reply_witness :
    ∃ m : Byte, (m = 0x00 ∨ m = 0xFF) ∧
      (negotiate_auth_method 7 (some (SOCKS5_VER :: [0x02, 0x01, 0x00])) 0x2A 2).trace
        = [.recv 7 1024, .send 7 [0x05, m]] ∧
      ((negotiate_auth_method 7 (some (SOCKS5_VER :: [0x02, 0x01, 0x00])) 0x2A 2).ret = 0
        ↔ (m = 0x00 ∧ (2 : Int) = 2)) ∧
      ((negotiate_auth_method 7 (some (SOCKS5_VER :: [0x02, 0x01, 0x00])) 0x2A 2).ret ≠ 0
        → (negotiate_auth_method 7 (some (SOCKS5_VER :: [0x02, 0x01, 0x00])) 0x2A 2).ret
          = -1) ∧
      (m = 0xFF →
        (negotiate_auth_method 7 (some (SOCKS5_VER :: [0x02, 0x01, 0x00])) 0x2A 2).ret
          = -1) :=
  negotiate_auth_method_reply 7 [0x02, 0x01, 0x00] 0x2A 2 (by decide)

/-- C7: when the first byte received is not 0x05, `negotiate_auth_method` makes
no `send` and returns -1, and the whole run of `serve_socks_client` is that one
`recv` followed by `close(clientfd)`: no second `recv`, no upstream connect, no
reply. -/
theorem wrong_version_silent_close (clientfd : Int) (b : Byte) (rest : List Byte)
    (method0 : Byte) (send_ret : Int) (hb : b ≠ SOCKS5_VER) :
    negotiate_auth_method clientfd (some (b :: rest)) method0 send_ret
      = ⟨[.recv clientfd 1024], -1⟩ ∧
    ∀ env : Env, env.negotiation_rx = some (b :: rest) →
      serve_socks_client clientfd env = [.recv clientfd 1024, .close clientfd] := by
  have key : ∀ (m0 : Byte) (sr : Int),
      negotiate_auth_method clientfd (some (b :: rest)) m0 sr
        = ⟨[.recv clientfd 1024], -1⟩ := by
    intro m0 sr
    have h0 : (recv_buf 1024 (some (b :: rest))).getD 0 0 = b := by
      rw [getD_recv_buf]; rfl
    unfold negotiate_auth_method
    simp only [h0, ne_eq, hb, not_false_eq_true, if_true, ite_self]
  refine ⟨key method0 send_ret, ?_⟩
  intro env henv
  unfold serve_socks_client
  simp only [henv, key]
  rfl

/-- Witness for C7: the message `04 01 00`. -/
theorem wrong_version_silent_close_witness :
    negotiate_auth_method 7 (some [0x04, 0x01, 0x00]) 0x2A 2 = ⟨[.recv 7 1024], -1⟩ ∧
    ∀ env : Env, env.negotiation_rx = some [0x04, 0x01, 0x00] →
      serve_socks_client 7 env = [.recv 7 1024, .close 7] :=
  wrong_version_silent_close 7 0x04 [0x01, 0x00] 0x2A 2 (by decide)

/-- C8: when the second byte (CMD) of the request is not 0x01, `parse_request`
returns -1, and every run of `serve_socks_client` that receives this request
makes no `create_connection` call and ends with `close(clientfd)`. -/
theorem unsupported_command_rejected (clientfd : Int) (addr_size : Nat) (v cmd : Byte)
    (rest : List Byte) (hcmd : cmd ≠ 0x01) :
    (parse_request clientfd addr_size (some (v :: cmd :: rest))).ret = -1 ∧
    ∀ env : Env, env.request_rx = some (v :: cmd :: rest) →
      (∀ a p, Event.create_connection a p ∉ serve_socks_client clientfd env) ∧
      (serve_socks_client clientfd env).getLast? = some (.close clientfd) := by
  have hc : (recv_buf 1024 (some (v :: cmd :: rest))).getD 1 0 ≠ 1 := by
    rw [getD_recv_buf]; exact hcmd
  refine ⟨(parse_request_reject clientfd addr_size _ (Or.inr (Or.inr (Or.inl hc)))).1, ?_⟩
  intro env henv
  obtain ⟨hret, htr, -, -⟩ := parse_request_reject clientfd
    (stack_buf (INET6_ADDRSTRLEN + 1) env.addr_garbage).length _
    (Or.inr (Or.inr (Or.inl hc)))
  unfold serve_socks_client
  simp only [henv]
  split
  · rcases negotiate_auth_method_trace clientfd env.negotiation_rx env.method_garbage
      env.method_send_ret with h | ⟨buf, h⟩ <;> rw [h] <;> simp
  · rw [if_pos (by rw [hret]; decide), htr]
    rcases negotiate_auth_method_trace clientfd env.negotiation_rx env.method_garbage
      env.method_send_ret with h | ⟨buf, h⟩ <;> rw [h] <;> simp

/-- Witness for C8: the BIND request `05 02 00 01 7F 00 00 01 00 50`. -/
theorem unsupported_command_rejected_witness :
    (parse_request 7 47 (some (0x05 :: 0x02 :: [0x00, 0x01, 0x7F, 0x00, 0x00, 0x01, 0x00, 0x50]))).ret
      = -1 ∧
    ∀ env : Env,
      env.request_rx = some (0x05 :: 0x02 :: [0x00, 0x01, 0x7F, 0x00, 0x00, 0x01, 0x00, 0x50]) →
      (∀ a p, Event.create_connection a p ∉ serve_socks_client 7 env) ∧
      (serve_socks_client 7 env).getLast? = some (.close 7) :=
  unsupported_command_rejected 7 47 0x05 0x02 [0x00, 0x01, 0x7F, 0x00, 0x00, 0x01, 0x00, 0x50]
    (by decide)

/-- C9: when the fourth byte (ATYP) of the request is none of 0x01, 0x03, 0x04,
`parse_request` returns -1 having made no store to `addr` and none to `*port`. -/
theorem invalid_atyp_rejected (clientfd : Int) (addr_size : Nat) (b0 b1 b2 atyp : Byte)
    (rest : List Byte) (h1 : atyp ≠ 0x01) (h3 : atyp ≠ 0x03) (h4 : atyp ≠ 0x04) :
    (parse_request clientfd addr_size (some (b0 :: b1 :: b2 :: atyp :: rest))).ret = -1 ∧
    (parse_request clientfd addr_size (some (b0 :: b1 :: b2 :: atyp :: rest))).addr_writes = [] ∧
    (parse_request clientfd addr_size (some (b0 :: b1 :: b2 :: atyp :: rest))).port = none := by
  have ha : (recv_buf 1024 (some (b0 :: b1 :: b2 :: atyp :: rest))).getD 3 0 = atyp := by
    rw [getD_recv_buf]; rfl
  obtain ⟨hret, -, hw, hp⟩ := parse_request_reject clientfd addr_size
    (some (b0 :: b1 :: b2 :: atyp :: rest))
    (Or.inr (Or.inr (Or.inr (by rw [ha]; exact ⟨h1, h3, h4⟩))))
  exact ⟨hret, hw, hp⟩

/-- Witness for C9: a request with `ATYP = 0x02`. -/
theorem invalid_atyp_rejected_witness :
    (parse_request 7 47 (some (0x05 :: 0x01 :: 0x00 :: 0x02 :: [0x7F, 0x00, 0x00, 0x01, 0x00, 0x50]))).ret
      = -1 ∧
    (parse_request 7 47
      (some (0x05 :: 0x01 :: 0x00 :: 0x02 :: [0x7F, 0x00, 0x00, 0x01, 0x00, 0x50]))).addr_writes
      = [] ∧
    (parse_request 7 47
      (some (0x05 :: 0x01 :: 0x00 :: 0x02 :: [0x7F, 0x00, 0x00, 0x01, 0x00, 0x50]))).port
      = none :=
  invalid_atyp_rejected 7 47 0x05 0x01 0x00 0x02 [0x7F, 0x00, 0x00, 0x01, 0x00, 0x50]
    (by decide) (by decide) (by decide)

/-- C10: on the 6-byte message `05 01 00 01 7F 00` (an IPv4 request cut after
two address bytes) `parse_request` prints "nbytes too small" and goes on: it
stores to `addr`, stores port 0 and returns 0. -/
theorem parse_request_truncated_scenario :
    parse_request 7 47 (some [0x05, 0x01, 0x00, 0x01, 0x7F, 0x00])
      = ⟨[.recv 7 1024], [.nbytes_too_small],
         [(0, 0x01), (1, 0x7F), (2, 0x00), (4, 0x00)], some 0, 0⟩ := by
  decide

/-- C11: in every run in which negotiation and `parse_request` succeed and
`create_connection` fails (returns a negative value), the call is followed by
exactly one `send`, of a reply whose status byte is 0x01, then by
`close(targetfd)` and `close(clientfd)`, and the run ends there:
`tunnel_sockets` is never called.  This holds for every request that
`parse_request` accepts, whatever the length of its name. -/
theorem connect_failure_reply (clientfd : Int) (env : Env)
    (hneg : ¬ (negotiate_auth_method clientfd env.negotiation_rx env.method_garbage
      env.method_send_ret).ret < 0)
    (hreq : ¬ (parse_request clientfd (INET6_ADDRSTRLEN + 1) env.request_rx).ret < 0)
    (hfail : env.connect_ret < 0) :
    (∃ a p, serve_socks_client clientfd env =
      (negotiate_auth_method clientfd env.negotiation_rx env.method_garbage
        env.method_send_ret).trace ++
      [.recv clientfd 1024, .create_connection a p,
        .send clientfd [0x05, 0x01, 0x00, 0x03, 0x08, 0x30, 0x2E, 0x30, 0x2E, 0x30, 0x2E, 0x30,
          0x00, 0x00, 0x00, env.reply_garbage 15, env.reply_garbage 16],
        .close env.connect_ret, .close clientfd]) ∧
    ∀ fd1 fd2, Event.tunnel_sockets fd1 fd2 ∉ serve_socks_client clientfd env := by
  have htr := negotiate_auth_method_trace clientfd env.negotiation_rx env.method_garbage
    env.method_send_ret
  rcases serve_socks_client_cases clientfd env with
    ⟨h0, -⟩ | ⟨-, h0, -⟩ | ⟨-, -, -, a, p, h⟩ | ⟨-, -, -, h3, -⟩
  · exact absurd h0 hneg
  · exact absurd h0 hreq
  · rw [if_pos hfail, send_reply_trace] at h
    rw [h]
    refine ⟨⟨a, p, by simp⟩, ?_⟩
    intro fd1 fd2 hmem
    rcases htr with hn | ⟨buf, hn⟩ <;> rw [hn] at hmem <;> simp at hmem
  · exact absurd hfail h3

/-- Witness for C11: negotiation `05 01 00`, a request with a domain name of 47
bytes, which `parse_request` accepts, and an upstream connect that returns -1. -/
theorem connect_failure_reply_witness :
    (∃ a p, serve_socks_client 7
        ⟨some [0x05, 0x01, 0x00],
          some ([0x05, 0x01, 0x00, 0x03, 0x2F] ++ List.replicate 47 0x61 ++ [0x00, 0x50]),
          2, -1, 17, none, 0x2A, fun _ => 0xAA, fun _ => 0xBB⟩ =
      (negotiate_auth_method 7 (some [0x05, 0x01, 0x00]) 0x2A 2).trace ++
      [.recv 7 1024, .create_connection a p,
        .send 7 [0x05, 0x01, 0x00, 0x03, 0x08, 0x30, 0x2E, 0x30, 0x2E, 0x30, 0x2E, 0x30,
          0x00, 0x00, 0x00, 0xBB, 0xBB],
        .close (-1), .close 7]) ∧
    ∀ fd1 fd2, Event.tunnel_sockets fd1 fd2 ∉ serve_socks_client 7
        ⟨some [0x05, 0x01, 0x00],
          some ([0x05, 0x01, 0x00, 0x03, 0x2F] ++ List.replicate 47 0x61 ++ [0x00, 0x50]),
          2, -1, 17, none, 0x2A, fun _ => 0xAA, fun _ => 0xBB⟩ :=
  connect_failure_reply 7
    ⟨some [0x05, 0x01, 0x00],
      some ([0x05, 0x01, 0x00, 0x03, 0x2F] ++ List.replicate 47 0x61 ++ [0x00, 0x50]),
      2, -1, 17, none, 0x2A, fun _ => 0xAA, fun _ => 0xBB⟩
    (by decide) (by decide) (by decide)

/-- C12: every run of `serve_socks_client` consists of the first `k` of the five
steps negotiation, request parsing, upstream connect, reply, relay, in this
order and each once, followed only by `close` calls.  Parsing runs only after a
successful negotiation, the connect only after a successful parse, the reply
always and only after the connect, and the relay only after a reply with status
0x00 was written in full. -/
theorem serve_socks_client_order (clientfd : Int) (env : Env) :
    ∃ (k : Nat) (a p : List Byte) (cleanup : List Event),
      serve_socks_client clientfd env =
        (List.take k
          [(negotiate_auth_method clientfd env.negotiation_rx env.method_garbage
              env.method_send_ret).trace,
           (parse_request clientfd (INET6_ADDRSTRLEN + 1) env.request_rx).trace,
           [.create_connection a p],
           (send_reply clientfd (if env.connect_ret < 0 then SOCKS5_CONN_FAIL
              else SOCKS5_CONN_SUCCEED) env.reply_garbage env.reply_send_ret).trace,
           [.tunnel_sockets clientfd env.connect_ret]]).flatten ++ cleanup ∧
      (∀ e ∈ cleanup, ∃ fd, e = Event.close fd) ∧
      (k = 1 ∨ k = 2 ∨ k = 4 ∨ k = 5) ∧
      (2 ≤ k → ¬ (negotiate_auth_method clientfd env.negotiation_rx env.method_garbage
          env.method_send_ret).ret < 0) ∧
      (3 ≤ k → ¬ (parse_request clientfd (INET6_ADDRSTRLEN + 1) env.request_rx).ret < 0) ∧
      (¬ (negotiate_auth_method clientfd env.negotiation_rx env.method_garbage
          env.method_send_ret).ret < 0 →
        ¬ (parse_request clientfd (INET6_ADDRSTRLEN + 1) env.request_rx).ret < 0 → 4 ≤ k) ∧
      (k = 5 → ¬ env.connect_ret < 0 ∧
        (send_reply clientfd SOCKS5_CONN_SUCCEED env.reply_garbage env.reply_send_ret).ret
          = 0) := by
  rcases serve_socks_client_cases clientfd env with
    ⟨h0, h⟩ | ⟨h1, h0, h⟩ | ⟨h1, h2, -, a, p, h⟩ | ⟨h1, h2, h4, h3, a, p, c, h, hc⟩
  · refine ⟨1, [], [], [.close clientfd], ?_, ?_, Or.inl rfl, ?_, ?_, ?_, ?_⟩
    · rw [h]; simp
    · intro e he
      simp only [List.mem_singleton] at he
      exact ⟨clientfd, he⟩
    · omega
    · omega
    · intro hn; exact absurd h0 hn
    · omega
  · refine ⟨2, [], [], [.close clientfd], ?_, ?_, Or.inr (Or.inl rfl), ?_, ?_, ?_, ?_⟩
    · rw [h, parse_request_trace]; simp
    · intro e he
      simp only [List.mem_singleton] at he
      exact ⟨clientfd, he⟩
    · intro _; exact h1
    · omega
    · intro _ hr; exact absurd h0 hr
    · omega
  · refine ⟨4, a, p, [.close env.connect_ret, .close clientfd], ?_, ?_,
      Or.inr (Or.inr (Or.inl rfl)), ?_, ?_, ?_, ?_⟩
    · rw [h, parse_request_trace]; simp
    · intro e he
      simp only [List.mem_cons, List.mem_singleton, List.not_mem_nil, or_false] at he
      rcases he with he | he
      · exact ⟨_, he⟩
      · exact ⟨_, he⟩
    · intro _; exact h1
    · intro _; exact h2
    · intro _ _; omega
    · omega
  · refine ⟨5, a, p, c, ?_, ?_, Or.inr (Or.inr (Or.inr rfl)), ?_, ?_, ?_, ?_⟩
    · rw [h, parse_request_trace, if_neg h3]; simp
    · intro e he
      rcases hc with rfl | rfl | rfl
      · simp at he
      · simp only [List.mem_cons, List.mem_singleton, List.not_mem_nil, or_false] at he
        rcases he with he | he
        · exact ⟨_, he⟩
        · exact ⟨_, he⟩
      · simp only [List.mem_singleton] at he
        exact ⟨_, he⟩
    · intro _; exact h1
    · intro _; exact h2
    · intro _ _; omega
    · intro _
      refine ⟨h3, ?_⟩
      rcases send_reply_ret clientfd SOCKS5_CONN_SUCCEED env.reply_garbage env.reply_send_ret
        with h0 | h0
      · exact h0
      · rw [h0] at h4
        exact absurd (by decide) h4

/-- C14: when the first `recv` on socket 4 returns 0, `tunnel_sockets(4, 5)`
closes socket 4 only and stays in its loop: the next chunk read from socket 5 is
dropped, socket 5 is closed only when its own `recv` returns 0, and the function
has still not returned after that. -/
theorem tunnel_sockets_eof_scenario :
    tunnel_sockets 4 5
        [⟨1, [4], some [], 0⟩, ⟨1, [5], some [0x41], 1⟩, ⟨1, [5], none, 0⟩,
         ⟨1, [5], some [], 0⟩]
      = ⟨[.select 6 [5, 4], .recv 4 0 [], .close 4,
          .select 6 [5], .recv 5 1 [0x41],
          .select 6 [5],
          .select 6 [5], .recv 5 0 [], .close 5], none⟩ ∧
    (tunnel_sockets 4 5 [⟨1, [4], some [], 0⟩]).trace
      = [.select 6 [5, 4], .recv 4 0 [], .close 4] ∧
    (tunnel_sockets 4 5 [⟨1, [4], some [], 0⟩]).ret = none := by
  decide

/-- C15, as stated, fails: in the first iteration of `tunnel_sockets(4, 5)`
`select` reports socket 5 readable, and the iteration makes no `recv`; socket 5
is read in the second iteration. -/
theorem tunnel_sockets_out_of_turn :
    FD_ISSET 5 [5] = true ∧
    tunnel_sockets 4 5 [⟨1, [5], some [0x41], 1⟩] = ⟨[.select 6 [5, 4]], none⟩ ∧
    tunnel_sockets 4 5 [⟨1, [5], some [0x41], 1⟩, ⟨1, [5], some [0x41], 1⟩]
      = ⟨[.select 6 [5, 4], .select 6 [5, 4], .recv 5 1 [0x41], .send 4 [0x41]], none⟩ := by
  decide

/-- C15, amended: the sockets take strict turns.  Whatever the earlier iterations
did (nothing, a forwarded chunk, a dropped chunk, an end-of-stream) and
whatever `select` reports, iteration `n` of a loop that is still running
examines the socket `turn fd1 fd2 n` only, `fd1` for even `n` and `fd2` for odd
`n`: the calls of the iteration are `select`, then, only if `select` reports
that socket, its `recv`, then the `send` of a non-empty chunk on the other
socket if that one has not been closed, or the `close` of the socket read at
end-of-stream.  A socket reported readable out of turn is not read. -/
theorem tunnel_sockets_turn (fd1 fd2 : Int) (rounds : List Round) (r : Round)
    (hrun : (tunnel_sockets fd1 fd2 rounds).ret = none) (hsel : r.select_ret ≠ -1) :
    (tunnel_sockets fd1 fd2 (rounds ++ [r])).trace =
      (tunnel_sockets fd1 fd2 rounds).trace ++
        RelayEvent.select (fd2 + 1) (still_open fd1 fd2 (tunnel_sockets fd1 fd2 rounds).trace) ::
          (if FD_ISSET (turn fd1 fd2 rounds.length) r.read_fds = true then
            RelayEvent.recv (turn fd1 fd2 rounds.length) (recv_nbytes 16384 r.recv_rx)
                (recv_data 16384 r.recv_rx) ::
              (if 0 < recv_nbytes 16384 r.recv_rx then
                (if FD_ISSET (turn fd1 fd2 (rounds.length + 1))
                    (still_open fd1 fd2 (tunnel_sockets fd1 fd2 rounds).trace) = true then
                  [RelayEvent.send (turn fd1 fd2 (rounds.length + 1))
                    (recv_data 16384 r.recv_rx)]
                 else [])
               else if recv_nbytes 16384 r.recv_rx = 0 then
                 [RelayEvent.close (turn fd1 fd2 rounds.length)]
               else [])
           else []) := by
  unfold tunnel_sockets at hrun ⊢
  simp only at hrun ⊢
  rw [tunnel_loop_snoc fd2 r rounds _ fd1 fd2 hrun]
  simp only [RelayResult.after]
  rw [tunnel_loop_single fd2 _ _ _ r hsel]
  rfl

/-- Witness for C15, amended: socket 4 reached end-of-stream in iteration 0, a
chunk of socket 5 was dropped in iteration 1; in iteration 2 it is the turn of
socket 4 and `select` reports socket 5, which is not read. -/
theorem tunnel_sockets_turn_witness :
    (tunnel_sockets 4 5
      ([⟨1, [4], some [], 0⟩, ⟨1, [5], some [0x41], 1⟩] ++ [⟨1, [5], some [0x42], 1⟩])).trace =
      (tunnel_sockets 4 5 [⟨1, [4], some [], 0⟩, ⟨1, [5], some [0x41], 1⟩]).trace ++
        RelayEvent.select (5 + 1) (still_open 4 5
            (tunnel_sockets 4 5 [⟨1, [4], some [], 0⟩, ⟨1, [5], some [0x41], 1⟩]).trace) ::
          (if FD_ISSET (turn 4 5 ([⟨1, [4], some [], 0⟩, ⟨1, [5], some [0x41], 1⟩] : List Round).length)
              (Round.mk 1 [5] (some [0x42]) 1).read_fds = true then
            RelayEvent.recv (turn 4 5 ([⟨1, [4], some [], 0⟩, ⟨1, [5], some [0x41], 1⟩] : List Round).length)
                (recv_nbytes 16384 (Round.mk 1 [5] (some [0x42]) 1).recv_rx)
                (recv_data 16384 (Round.mk 1 [5] (some [0x42]) 1).recv_rx) ::
              (if 0 < recv_nbytes 16384 (Round.mk 1 [5] (some [0x42]) 1).recv_rx then
                (if FD_ISSET
                    (turn 4 5 (([⟨1, [4], some [], 0⟩, ⟨1, [5], some [0x41], 1⟩] : List Round).length + 1))
                    (still_open 4 5 (tunnel_sockets 4 5
                      [⟨1, [4], some [], 0⟩, ⟨1, [5], some [0x41], 1⟩]).trace) = true then
                  [RelayEvent.send
                    (turn 4 5 (([⟨1, [4], some [], 0⟩, ⟨1, [5], some [0x41], 1⟩] : List Round).length + 1))
                    (recv_data 16384 (Round.mk 1 [5] (some [0x42]) 1).recv_rx)]
                 else [])
               else if recv_nbytes 16384 (Round.mk 1 [5] (some [0x42]) 1).recv_rx = 0 then
                 [RelayEvent.close
                   (turn 4 5 ([⟨1, [4], some [], 0⟩, ⟨1, [5], some [0x41], 1⟩] : List Round).length)]
               else [])
           else []) :=
  tunnel_sockets_turn 4 5 [⟨1, [4], some [], 0⟩, ⟨1, [5], some [0x41], 1⟩]
    ⟨1, [5], some [0x42], 1⟩ (by decide) (by decide)

/-- C16, as stated, fails: when `malloc` fails for the first connection (client
socket 5), `start_socks_server` closes the listening socket 3 as well and
returns; the second connection is never accepted. -/
theorem start_socks_server_malloc_scenario :
    start_socks_server 3 [⟨5, false, 0⟩, ⟨6, true, 0⟩]
      = ⟨[.accept 3, .close 3, .close 5], true⟩ := by
  decide

/-- C16, amended: when `malloc` fails for a connection, after any number of
connections served without failure, `start_socks_server` closes the listening
socket and that client's socket and returns, whatever connections are still
to come. -/
theorem malloc_failure_ends_server (serverfd : Int) (served : List Arrival) (a : Arrival)
    (later : List Arrival) (hserver : ¬ serverfd < 0)
    (hserved : ∀ q ∈ served,
      ¬ q.accept_ret < 0 ∧ q.malloc_ok = true ∧ ¬ q.pthread_create_ret < 0)
    (haccept : ¬ a.accept_ret < 0) (hmalloc : a.malloc_ok = false) :
    start_socks_server serverfd (served ++ a :: later)
      = ⟨(served.map
            (fun q => [AcceptorEvent.accept serverfd, .pthread_create q.accept_ret])).flatten
          ++ [.accept serverfd, .close serverfd, .close a.accept_ret], true⟩ := by
  unfold start_socks_server
  simp only [if_neg hserver]
  induction served with
  | nil =>
    simp only [List.nil_append, accept_loop, if_neg haccept, hmalloc, if_true, List.map_nil,
      List.flatten_nil]
  | cons q served ih =>
    obtain ⟨h1, h2, h3⟩ := hserved q (List.mem_cons_self _ _)
    have ih' := ih (fun x hx => hserved x (List.mem_cons_of_mem _ hx))
    simp only [List.cons_append, accept_loop, if_neg h1, h2, Bool.true_eq_false, if_false,
      if_neg h3, List.append_eq, ih', List.map_cons, List.flatten_cons, List.append_assoc,
      List.nil_append, List.cons_append]

/-- Witness for C16, amended: one connection served, then a `malloc` failure. -/
theorem malloc_failure_ends_server_witness :
    start_socks_server 3 ([⟨4, true, 0⟩] ++ ⟨5, false, 0⟩ :: [⟨6, true, 0⟩])
      = ⟨(([⟨4, true, 0⟩] : List Arrival).map
            (fun q => [AcceptorEvent.accept 3, .pthread_create q.accept_ret])).flatten
          ++ [.accept 3, .close 3, .close (Arrival.mk 5 false 0).accept_ret], true⟩ :=
  malloc_failure_ends_server 3 [⟨4, true, 0⟩] ⟨5, false, 0⟩ [⟨6, true, 0⟩] (by decide)
    (by simp) (by decide) rfl

/-- C17: on a domain-name request with length byte 47 (47 name bytes `a`),
`parse_request`, called with `addr_size = 47`, returns 0 after storing the
terminating NUL at `addr[47]`, outside the 47 bytes of `addr`. -/
theorem parse_request_overflow_scenario :
    (parse_request 7 (INET6_ADDRSTRLEN + 1)
      (some ([0x05, 0x01, 0x00, 0x03, 0x2F] ++ List.replicate 47 0x61 ++ [0x00, 0x50]))).ret
      = 0 ∧
    ((47, 0x00) : Nat × Byte) ∈ (parse_request 7 (INET6_ADDRSTRLEN + 1)
      (some ([0x05, 0x01, 0x00, 0x03, 0x2F] ++ List.replicate 47 0x61
        ++ [0x00, 0x50]))).addr_writes ∧
    ∀ garbage : Nat → Byte,
      apply_writes (stack_buf (INET6_ADDRSTRLEN + 1) garbage)
        (parse_request 7 (INET6_ADDRSTRLEN + 1)
          (some ([0x05, 0x01, 0x00, 0x03, 0x2F] ++ List.replicate 47 0x61
            ++ [0x00, 0x50]))).addr_writes = none := by
  have hmem : ((47, 0x00) : Nat × Byte) ∈ (parse_request 7 (INET6_ADDRSTRLEN + 1)
      (some ([0x05, 0x01, 0x00, 0x03, 0x2F] ++ List.replicate 47 0x61
        ++ [0x00, 0x50]))).addr_writes := by decide
  refine ⟨by decide, hmem, ?_⟩
  intro garbage
  exact apply_writes_none _ _ ⟨(47, 0x00), hmem, by rw [length_stack_buf]⟩

/-- C18: after the negotiation `05 01 00` and the request
`05 01 00 03 02 'a' 'b' 1F 90`, for which `parse_request` returns port 8080,
`serve_socks_client` calls `create_connection` with the port string `808`: the
4-byte `str_port` holds three characters of the decimal text `8080`. -/
theorem serve_socks_client_port_scenario :
    (parse_request 7 47 (some [0x05, 0x01, 0x00, 0x03, 0x02, 0x61, 0x62, 0x1F, 0x90])).port
      = some 8080 ∧
    serve_socks_client 7
      ⟨some [0x05, 0x01, 0x00], some [0x05, 0x01, 0x00, 0x03, 0x02, 0x61, 0x62, 0x1F, 0x90],
        2, 9, 17, none, 0x2A, fun _ => 0xAA, fun _ => 0xBB⟩
      = [.recv 7 1024, .send 7 [0x05, 0x00], .recv 7 1024,
         .create_connection [0x61, 0x62] [0x38, 0x30, 0x38],
         .send 7 [0x05, 0x00, 0x00, 0x03, 0x08, 0x30, 0x2E, 0x30, 0x2E, 0x30, 0x2E, 0x30,
           0x00, 0x00, 0x00, 0xBB, 0xBB],
         .tunnel_sockets 7 9] ∧
    decimal_text 8080 = [0x38, 0x30, 0x38, 0x30] := by
  decide

/-- C19: on the 3-byte message `05 02 01`, which declares two methods and
carries one (0x01), the scan reads position 3 of the zero-filled buffer, which
the client did not send, selects 0x00 and answers `05 00`; no method byte
received is 0x00. -/
theorem negotiate_auth_method_short_scenario :
    (∀ method0 : Byte, negotiate_auth_method 7 (some [0x05, 0x02, 0x01]) method0 2
      = ⟨[.recv 7 1024, .send 7 [0x05, 0x00]], 0⟩) ∧
    (0x00 : Byte) ∉ ([0x05, 0x02, 0x01] : List Byte).drop 2 := by
  refine ⟨fun method0 => rfl, by decide⟩

end Socks5
